import Mathlib

/-!
Verification development for the smart_notebook backend.

The definitions below are a shallow embedding of the Python sources:
  * `db.py`   — the relational store is modelled as in-memory lists of rows
                (`DB`), with the query-builder shim modelled separately as
                `QueryState`/`buildSQL`.
  * `deps.py` — `get_current_user_id`.
  * `routers/chat.py` — `stream_generator` (the chat orchestrator) and
                `chat_endpoint`.  External-API streams and fallible effects
                are supplied by a `GenOracle`: each stream is the list of
                fragments it yields before (optionally) raising, and each
                database round-trip may raise.
  * `routers/bookmarks.py`, `routers/threads.py` — the bookmarked-thread
                handlers.

Machine-generated ids are modelled by the counter `DB.nextId` and row
timestamps (`created_at`, SQL `NOW()`) by the counter `DB.clock`; both are
bumped on every insert, so later inserts always carry strictly larger
timestamps.  `DB.WF` records the induced well-formedness: messages are
stored oldest-first with strictly increasing timestamps, and all ids and
timestamps are below the current counters.
-/

/-- A row of the `threads` table (`db.py`, `init_db`): `id` primary key,
nullable `user_id` owner, `title`.  Timestamps are irrelevant here. -/
structure ThreadRow where
  id : String
  user_id : Option String
  title : String
deriving DecidableEq, Repr

/-- A row of the `messages` table (`db.py`, `init_db`). -/
structure MessageRow where
  id : Nat
  thread_id : String
  role : String
  content : String
  original_language : Option String
  translated_content : Option String
  created_at : Nat
deriving DecidableEq, Repr

/-- A row of the `users` table (`db.py`, `init_db`). -/
structure UserRow where
  id : String
  user_type : String
  created_at : Nat
  last_active_at : Nat
deriving DecidableEq, Repr

/-- The backing store: one list per table touched by the claims, plus the
timestamp clock and the id counter. `bookmarked_threads` rows consist of a
`thread_id` only, so that table is a list of thread ids. -/
structure DB where
  threads : List ThreadRow
  messages : List MessageRow
  bookmarked : List String
  users : List UserRow
  clock : Nat
  nextId : Nat
deriving DecidableEq, Repr

/-- `INSERT INTO messages` (wrapper `execute`, insert branch): the row gets a
fresh id and `created_at = NOW()`; the inserted row is returned. -/
def DB.insertMessage (db : DB) (tid role content : String) (orig : Option String) :
    DB × MessageRow :=
  let m : MessageRow :=
    { id := db.nextId, thread_id := tid, role := role, content := content,
      original_language := orig, translated_content := none, created_at := db.clock }
  ({ db with messages := db.messages ++ [m], clock := db.clock + 1, nextId := db.nextId + 1 }, m)

/-- `UPDATE messages SET translated_content = %s WHERE id = %s`. -/
def DB.updateMessageTranslated (db : DB) (mid : Nat) (t : String) : DB :=
  let f := fun (m : MessageRow) =>
    if m.id = mid then { m with translated_content := some t } else m
  { db with messages := db.messages.map f }

/-- `UPDATE messages SET content = %s WHERE id = %s`. -/
def DB.updateMessageContent (db : DB) (mid : Nat) (c : String) : DB :=
  let f := fun (m : MessageRow) => if m.id = mid then { m with content := c } else m
  { db with messages := db.messages.map f }

/-- `INSERT INTO users` as issued by `deps.get_current_user_id`: a guest row
with `last_active_at = now()` (and `created_at` defaulted by the table). -/
def DB.insertGuestUser (db : DB) (uid : String) : DB :=
  { db with
      users := db.users ++ [{ id := uid, user_type := "guest",
                              created_at := db.clock, last_active_at := db.clock }],
      clock := db.clock + 1 }

/-- `UPDATE users SET last_active_at = %s WHERE id = %s`. -/
def DB.touchUser (db : DB) (uid : String) : DB :=
  let f := fun (u : UserRow) =>
    if u.id = uid then { u with last_active_at := db.clock } else u
  { db with users := db.users.map f, clock := db.clock + 1 }

/-- Well-formedness maintained by the model: messages are stored in
insertion order with strictly increasing `created_at`, and every stored
timestamp and id is below the corresponding counter. -/
def DB.WF (db : DB) : Prop :=
  db.messages.Pairwise (fun a b => a.created_at < b.created_at) ∧
  (∀ m ∈ db.messages, m.created_at < db.clock ∧ m.id < db.nextId)

instance (db : DB) : Decidable db.WF := by
  unfold DB.WF; infer_instance

/-- One `{role, content}` entry of the history handed to
`llm_service.generate_chat_stream`. -/
structure ChatMsg where
  role : String
  content : String
deriving DecidableEq, Repr

/-- A frame written to the SSE stream by `stream_generator`.  Each
constructor corresponds to one `yield` shape in `routers/chat.py`. -/
inductive Event where
  /-- `data: {"error": msg}` -/
  | errFrame (msg : String)
  /-- first `data: [USER_MESSAGE:{id, content, originalLanguage, translatedContent}]` -/
  | userMessageCreated (id : Nat) (content : String) (originalLanguage : String)
      (translatedContent : String)
  /-- second, full-snapshot `data: [USER_MESSAGE:{id, role, content, translatedContent, originalLanguage}]` -/
  | userMessageFull (id : Nat) (content : String) (translatedContent : String)
      (originalLanguage : String)
  /-- `data: [PHASE:name]` -/
  | phase (name : String)
  /-- `data: {"content": text}` -/
  | fragment (text : String)
  /-- `data: [ASSISTANT_MESSAGE_ID:id]` -/
  | assistantMessageId (id : Nat)
  /-- `data: [DONE]` -/
  | done
deriving DecidableEq, Repr

/-- A Python exception reaching the generator's `except` clauses:
`asyncio.CancelledError` (flagged by `cancelled`) or a generic exception
carrying `str(e)`. -/
structure Exn where
  cancelled : Bool
  msg : String
deriving DecidableEq, Repr

/-- `"socket.send() raised exception" in err_str or "Broken pipe" in err_str`
(`chat.py` line 187): substring containment on the exception text. -/
def disconnectText (s : String) : Bool :=
  decide (("socket.send() raised exception").toList <:+: s.toList) ||
  decide (("Broken pipe").toList <:+: s.toList)

/-- The generator's `except` clauses (`chat.py` lines 180-195): cancellation
returns silently, exception text matching the disconnect markers returns
silently, anything else yields one in-band error frame. -/
def handleExn (e : Exn) : List Event :=
  if e.cancelled then []
  else if disconnectText e.msg then []
  else [Event.errFrame e.msg]

/-- Behaviour of the effectful collaborators during one run of
`stream_generator`, in program order.  Each `*Err` field is the exception
raised by that database round-trip (`none` = success); each fragment list is
what the corresponding LLM stream yields before finishing or raising (a
`some` in the paired `*Err` field means the stream raised after yielding
exactly those fragments). -/
structure GenOracle where
  /-- the step-0 ownership `select` raised (the exception is swallowed) -/
  ownCheckErr : Bool
  insertUserErr : Option Exn
  translFrags : List String
  translErr : Option Exn
  updUserErr : Option Exn
  insertAsstErr : Option Exn
  fetchHistErr : Option Exn
  genFrags : List String
  genErr : Option Exn
  updAsstErr : Option Exn
  asstTrFrags : List String
  asstTrErr : Option Exn
  updAsstTrErr : Option Exn
deriving Repr

/-- Result of one generator run: the frames emitted on the stream, the final
database state, and the history actually handed to
`generate_chat_stream` (`none` when that call was never reached). -/
structure GenOut where
  events : List Event
  db : DB
  genInput : Option (List ChatMsg)
deriving Repr

/-- Insert one row into a list kept sorted by strictly decreasing
`created_at` (ties keep the existing row first), executing the SQL
`ORDER BY created_at DESC`. -/
def insertDescCreated (a : MessageRow) : List MessageRow → List MessageRow
  | [] => [a]
  | b :: l => if b.created_at < a.created_at then a :: b :: l else b :: insertDescCreated a l

/-- Sort by `created_at` descending (insertion sort). -/
def sortDescCreated (l : List MessageRow) : List MessageRow :=
  l.foldr insertDescCreated []

/-- The history fetch of `stream_generator` (lines 117-124):
`select * from messages where thread_id = %s order by created_at desc limit 10`. -/
def selectHistoryDesc (db : DB) (tid : String) : List MessageRow :=
  (sortDescCreated (db.messages.filter (fun m => m.thread_id == tid))).take 10

/-- Python truthiness of `msg.get("translated_content")`: a non-null,
non-empty string. -/
def truthyOpt : Option String → Bool
  | some s => s ≠ ""
  | none => false

/-- Formatting loop of `stream_generator` (lines 127-148): drop the
just-inserted user and placeholder rows, substitute a past user message's
translation when present and translation is on, then append the current
turn's content as the final user entry. `history` is the fetched window
already reversed to oldest-first. -/
def formatHistory (history : List MessageRow) (asstMsgId userMsgId : Nat)
    (translateToEnglish : Bool) (llmInputContent : String) : List ChatMsg :=
  (history.filterMap (fun m =>
    if m.id = asstMsgId ∨ m.id = userMsgId then none
    else some
      { role := m.role,
        content :=
          if m.role = "user" ∧ truthyOpt m.translated_content ∧ translateToEnglish
          then m.translated_content.getD "" else m.content })) ++
  [{ role := "user", content := llmInputContent }]

/-- Steps 5 and the `[DONE]` sentinel of `stream_generator` (lines 161-178),
entered right after the assistant content was persisted: optionally
stream-translate the reply, persist the translation, then emit `[DONE]`. -/
def genFinish (o : GenOracle) (db : DB) (asstMsgId : Nat) (autoTr : Bool) :
    List Event × DB :=
  if autoTr then
    let evs := Event.phase "TRANSLATING_RESPONSE" :: o.asstTrFrags.map Event.fragment
    match o.asstTrErr with
    | some e => (evs ++ handleExn e, db)
    | none =>
      match o.updAsstTrErr with
      | some e => (evs ++ handleExn e, db)
      | none =>
        (evs ++ [Event.done],
         db.updateMessageTranslated asstMsgId (String.join o.asstTrFrags))
  else ([Event.done], db)

/-- Step 4's generation loop and persist (lines 150-159): forward each
fragment, accumulate, persist the accumulated reply into the placeholder. -/
def genGenerate (o : GenOracle) (db : DB) (asstMsgId : Nat) (hist : List ChatMsg)
    (autoTr : Bool) : List Event × DB × Option (List ChatMsg) :=
  let evs := o.genFrags.map Event.fragment
  match o.genErr with
  | some e => (evs ++ handleExn e, db, some hist)
  | none =>
    match o.updAsstErr with
    | some e => (evs ++ handleExn e, db, some hist)
    | none =>
      let db1 := db.updateMessageContent asstMsgId (String.join o.genFrags)
      let (evs2, db2) := genFinish o db1 asstMsgId autoTr
      (evs ++ evs2, db2, some hist)

/-- `[PHASE:RESPONDING]`, the history fetch and the generation call
(lines 114-148). -/
def genRespond (o : GenOracle) (db : DB) (tid : String) (userMsgId asstMsgId : Nat)
    (translateToEnglish autoTr : Bool) (llmInputContent : String) :
    List Event × DB × Option (List ChatMsg) :=
  match o.fetchHistErr with
  | some e => (Event.phase "RESPONDING" :: handleExn e, db, none)
  | none =>
    let history := (selectHistoryDesc db tid).reverse
    let hist := formatHistory history asstMsgId userMsgId translateToEnglish llmInputContent
    let (evs, db1, gi) := genGenerate o db asstMsgId hist autoTr
    (Event.phase "RESPONDING" :: evs, db1, gi)

/-- Step 3 (lines 106-111): insert the empty assistant placeholder and emit
its id, then continue with generation. -/
def genAsst (o : GenOracle) (db : DB) (tid : String) (userMsgId : Nat)
    (translateToEnglish autoTr : Bool) (llmInputContent : String) :
    List Event × DB × Option (List ChatMsg) :=
  match o.insertAsstErr with
  | some e => (handleExn e, db, none)
  | none =>
    let (db1, asst) := db.insertMessage tid "assistant" "" none
    let (evs, db2, gi) :=
      genRespond o db1 tid userMsgId asst.id translateToEnglish autoTr llmInputContent
    (Event.assistantMessageId asst.id :: evs, db2, gi)

/-- Step 2 (lines 76-104): stream-translate the user content, persist the
accumulated translation, emit the full user-message snapshot, and feed the
translation (not the original) to the generation step. -/
def genTranslate (o : GenOracle) (db : DB) (tid userContent : String)
    (userMsgId : Nat) (autoTr : Bool) : List Event × DB × Option (List ChatMsg) :=
  let evs0 := Event.phase "TRANSLATING" :: o.translFrags.map Event.fragment
  match o.translErr with
  | some e => (evs0 ++ handleExn e, db, none)
  | none =>
    let t := String.join o.translFrags
    match o.updUserErr with
    | some e => (evs0 ++ handleExn e, db, none)
    | none =>
      let db1 := db.updateMessageTranslated userMsgId t
      let (evs2, db2, gi) := genAsst o db1 tid userMsgId true autoTr t
      (evs0 ++ (Event.userMessageFull userMsgId userContent t "ko" :: evs2), db2, gi)

/-- The `try` body of `stream_generator` (lines 49-178): insert the user
message, emit its event, then either translate first or go straight to the
assistant steps with the raw content. -/
def genBody (o : GenOracle) (db : DB) (tid userContent : String)
    (translateToEnglish autoTr : Bool) : GenOut :=
  match o.insertUserErr with
  | some e => { events := handleExn e, db := db, genInput := none }
  | none =>
    let lang := if translateToEnglish then "ko" else "en"
    let (db1, um) := db.insertMessage tid "user" userContent (some lang)
    let ev0 := Event.userMessageCreated um.id userContent lang ""
    if translateToEnglish then
      let (evs, db2, gi) := genTranslate o db1 tid userContent um.id autoTr
      { events := ev0 :: evs, db := db2, genInput := gi }
    else
      let (evs, db2, gi) := genAsst o db1 tid um.id false autoTr userContent
      { events := ev0 :: evs, db := db2, genInput := gi }

/-- Step 0 of `stream_generator` (lines 32-47): the in-stream ownership
re-check.  It blocks (yields the unauthorized error and returns) only when
the thread id is truthy and not the `"-99"` sentinel, the `select` did not
raise (a raise is swallowed), the thread row exists, and its owner is a
truthy string different from the caller. -/
def ownershipBlocked (db : DB) (tid uid : String) (checkRaised : Bool) : Bool :=
  if tid ≠ "" ∧ tid ≠ "-99" then
    if checkRaised then false
    else
      match (db.threads.filter (fun t => t.id == tid)).head? with
      | some t =>
        match t.user_id with
        | some owner => owner ≠ "" ∧ owner ≠ uid
        | none => false
      | none => false
  else false

/-- `stream_generator` (`routers/chat.py`): the whole per-turn orchestrator,
as a function from the request, the effect oracle and the store to the
emitted frames, the final store, and the history handed to generation. -/
def stream_generator (tid userContent : String) (translateToEnglish autoTr : Bool)
    (uid : String) (o : GenOracle) (db : DB) : GenOut :=
  if ownershipBlocked db tid uid o.ownCheckErr then
    { events := [Event.errFrame "Unauthorized access to this thread"],
      db := db, genInput := none }
  else genBody o db tid userContent translateToEnglish autoTr

/-- Outcome of the `/chat` endpoint: a synchronous HTTP error raised before
streaming starts, or the streamed run. -/
inductive ChatOutcome where
  | httpError (status : Nat) (detail : String)
  | streamed (out : GenOut)
deriving Repr

/-- `chat_endpoint` (`routers/chat.py` lines 198-229): verify ownership
before streaming — 404 when the thread id matches no row, 403 when the
owner differs from the caller, 500 when the lookup raises
(`checkErr` carries the raised text) — then run `stream_generator`. -/
def chat_endpoint (tid message : String) (translateToEnglish autoTr : Bool)
    (uid : String) (checkErr : Option String) (o : GenOracle) (db : DB) :
    ChatOutcome × DB :=
  match checkErr with
  | some m => (ChatOutcome.httpError 500 m, db)
  | none =>
    match (db.threads.filter (fun t => t.id == tid)).head? with
    | none => (ChatOutcome.httpError 404 "Thread not found", db)
    | some t =>
      if t.user_id = some uid then
        let g := stream_generator tid message translateToEnglish autoTr uid o db
        (ChatOutcome.streamed g, g.db)
      else (ChatOutcome.httpError 403 "Access denied", db)

/-- Outcome of `deps.get_current_user_id`. -/
inductive AuthOutcome where
  | badRequest
  | internalError
  | ok (uid : String)
deriving DecidableEq, Repr

/-- Fallibility of the two database round-trips in `get_current_user_id`. -/
structure AuthOracle where
  selectRaised : Bool
  writeRaised : Bool
deriving Repr

/-- `deps.get_current_user_id`: 400 when the `X-User-Id` header is missing
(or empty, Python falsiness); otherwise look the user up, auto-provision a
guest row when absent or touch `last_active_at` when present, and return the
token; any raise inside the `try` becomes a 500.  The third component counts
the writes performed. -/
def get_current_user_id (token : Option String) (o : AuthOracle) (db : DB) :
    AuthOutcome × DB × Nat :=
  match token with
  | none => (AuthOutcome.badRequest, db, 0)
  | some x =>
    if x = "" then (AuthOutcome.badRequest, db, 0)
    else if o.selectRaised then (AuthOutcome.internalError, db, 0)
    else if (db.users.filter (fun u => u.id == x)).isEmpty then
      if o.writeRaised then (AuthOutcome.internalError, db, 0)
      else (AuthOutcome.ok x, db.insertGuestUser x, 1)
    else
      if o.writeRaised then (AuthOutcome.internalError, db, 0)
      else (AuthOutcome.ok x, db.touchUser x, 1)

/-- Outcome of a bookmarked-thread handler. -/
inductive BmOutcome where
  | notFound
  | forbidden
  | success
  | badAction
deriving DecidableEq, Repr

/-- The shared ownership precheck of the bookmarked-thread handlers:
`select user_id from threads where id = %s`, 404 on no row, 403 when the
stored owner differs from the caller. -/
def threadOwnerCheck (db : DB) (tid uid : String) : Option BmOutcome :=
  match (db.threads.filter (fun t => t.id == tid)).head? with
  | none => some BmOutcome.notFound
  | some t => if t.user_id = some uid then none else some BmOutcome.forbidden

/-- `bookmarks.add_bookmarked_thread` (`routers/bookmarks.py` lines 122-152):
after the ownership check, insert the marker row only when no row for this
thread exists yet. -/
def add_bookmarked_thread (tid uid : String) (db : DB) : BmOutcome × DB :=
  match threadOwnerCheck db tid uid with
  | some r => (r, db)
  | none =>
    if (db.bookmarked.filter (fun b => b == tid)).isEmpty then
      (BmOutcome.success, { db with bookmarked := db.bookmarked ++ [tid] })
    else (BmOutcome.success, db)

/-- `bookmarks.remove_bookmarked_thread` (`routers/bookmarks.py`
lines 155-178): after the ownership check, delete any marker row for this
thread. -/
def remove_bookmarked_thread (tid uid : String) (db : DB) : BmOutcome × DB :=
  match threadOwnerCheck db tid uid with
  | some r => (r, db)
  | none => (BmOutcome.success, { db with bookmarked := db.bookmarked.filter (fun b => b ≠ tid) })

/-- `threads.toggle_bookmark_thread` (`routers/threads.py` lines 149-185):
the action-string variant of the same add/remove logic. -/
def toggle_bookmark_thread (action tid uid : String) (db : DB) : BmOutcome × DB :=
  match threadOwnerCheck db tid uid with
  | some r => (r, db)
  | none =>
    if action = "add" then
      if (db.bookmarked.filter (fun b => b == tid)).isEmpty then
        (BmOutcome.success, { db with bookmarked := db.bookmarked ++ [tid] })
      else (BmOutcome.success, db)
    else if action = "remove" then
      (BmOutcome.success, { db with bookmarked := db.bookmarked.filter (fun b => b ≠ tid) })
    else (BmOutcome.badAction, db)

/-- `_ALLOWED_TABLES` of `db.py`. -/
def allowedTables : List String :=
  ["threads", "messages", "bookmarked_threads", "bookmarks", "users"]

/-- One pass of the identifier pattern `[a-zA-Z_][a-zA-Z0-9_]*` over a whole
character list. -/
def isIdentChars : List Char → Bool
  | [] => false
  | c :: cs => (c.isAlpha || c == '_') && cs.all (fun d => d.isAlphanum || d == '_')

/-- A valid SQL identifier: ASCII letters, digits and underscores, starting
with a letter or underscore. -/
def isValidIdentifier (s : String) : Bool := isIdentChars s.toList

/-- `_IDENTIFIER_RE.match` of `db.py`: the Python regex
`^[a-zA-Z_][a-zA-Z0-9_]*$`, where `$` also matches just before a single
newline at the end of the string. -/
def identRegexMatch (s : String) : Bool :=
  isIdentChars s.toList ||
  (match s.toList.getLast? with
   | some c => (c == '\n') && isIdentChars s.toList.dropLast
   | none => false)

/-- The attribute bag built up on a `DBWrapper.Table` before `execute`. -/
structure QueryState where
  table_name : String
  sel : Option String := none
  eqF : Option (String × String) := none
  inF : Option (String × List String) := none
  orderF : Option (String × Bool) := none
  limitF : Option Nat := none
  insertD : Option (List (String × String)) := none
  updateD : Option (List (String × String)) := none
  deleteFlag : Bool := false
deriving Repr

/-- `DBWrapper.Table.__init__`: reject any table outside the allowed set. -/
def dbTable (name : String) : Except String QueryState :=
  if name ∈ allowedTables then Except.ok { table_name := name }
  else Except.error ("Invalid table name: " ++ name)

/-- `Table.eq`: validate the column, then record the single equality filter
(overwriting any earlier one). -/
def QueryState.eq (q : QueryState) (col v : String) : Except String QueryState :=
  if identRegexMatch col then Except.ok { q with eqF := some (col, v) }
  else Except.error ("Invalid column name: " ++ col)

/-- `Table.order`. -/
def QueryState.order (q : QueryState) (col : String) (desc : Bool) :
    Except String QueryState :=
  if identRegexMatch col then Except.ok { q with orderF := some (col, desc) }
  else Except.error ("Invalid column name: " ++ col)

/-- `Table.in_`. -/
def QueryState.in_ (q : QueryState) (col : String) (vs : List String) :
    Except String QueryState :=
  if identRegexMatch col then Except.ok { q with inF := some (col, vs) }
  else Except.error ("Invalid column name: " ++ col)

/-- `", ".join`. -/
def commaJoin (l : List String) : String := String.intercalate ", " l

/-- `Table.execute`, up to the point where the SQL text and its bound
parameters are handed to `cursor.execute`: the branch order (insert, update,
delete, select), the id auto-fill on insert, the column-name validation of
insert/update payload keys, and the exact query-text construction.  `uuid`
stands for `str(uuid.uuid4())`.  Returns the query text together with the
bound-parameter list, or the error raised before any SQL is issued. -/
def QueryState.buildSQL (q : QueryState) (uuid : String) :
    Except String (String × List String) :=
  match q.insertD with
  | some data0 =>
    let data :=
      if ¬ (data0.map Prod.fst).contains "id" ∧ q.table_name ≠ "bookmarked_threads"
      then data0 ++ [("id", uuid)] else data0
    match data.find? (fun kv => ¬ identRegexMatch kv.1) with
    | some kv => Except.error ("Invalid column name: " ++ kv.1)
    | none =>
      Except.ok
        ("INSERT INTO " ++ q.table_name ++ " (" ++ commaJoin (data.map Prod.fst) ++
           ") VALUES (" ++ commaJoin (data.map (fun _ => "%s")) ++ ") RETURNING *",
         data.map Prod.snd)
  | none =>
  match q.updateD with
  | some data =>
    match data.find? (fun kv => ¬ identRegexMatch kv.1) with
    | some kv => Except.error ("Invalid column name: " ++ kv.1)
    | none =>
      match q.eqF with
      | some cv =>
        Except.ok
          ("UPDATE " ++ q.table_name ++ " SET " ++
             commaJoin (data.map (fun kv => kv.1 ++ " = %s")) ++
             " WHERE " ++ cv.1 ++ " = %s",
           data.map Prod.snd ++ [cv.2])
      | none => Except.error "missing eq filter"
  | none =>
  if q.deleteFlag then
    match q.eqF with
    | some cv =>
      Except.ok ("DELETE FROM " ++ q.table_name ++ " WHERE " ++ cv.1 ++ " = %s", [cv.2])
    | none => Except.error "missing eq filter"
  else
    let base := "SELECT " ++ q.sel.getD "*" ++ " FROM " ++ q.table_name
    let wp : String × List String :=
      match q.eqF with
      | some cv => (" WHERE " ++ cv.1 ++ " = %s", [cv.2])
      | none =>
        match q.inF with
        | some cvs =>
          if cvs.2.isEmpty then ("", [])
          else (" WHERE " ++ cvs.1 ++ " IN (" ++
                  commaJoin (cvs.2.map (fun _ => "%s")) ++ ")", cvs.2)
        | none => ("", [])
    let orderC :=
      match q.orderF with
      | some cd => " ORDER BY " ++ cd.1 ++ (if cd.2 then " DESC" else " ASC")
      | none => ""
    let limitC :=
      match q.limitF with
      | some n => " LIMIT " ++ toString n
      | none => ""
    Except.ok (base ++ wp.1 ++ orderC ++ limitC, wp.2)

/-- Two builder states agree on everything except the filter and row
values: same table, same select string, same filter and payload column
names, same number of `IN` values, same order/limit/delete settings. -/
def SameShape (q1 q2 : QueryState) : Prop :=
  q1.table_name = q2.table_name ∧ q1.sel = q2.sel ∧
  q1.eqF.map Prod.fst = q2.eqF.map Prod.fst ∧
  q1.inF.map (fun p => (p.1, p.2.length)) = q2.inF.map (fun p => (p.1, p.2.length)) ∧
  q1.orderF = q2.orderF ∧ q1.limitF = q2.limitF ∧
  q1.insertD.map (fun l => l.map Prod.fst) = q2.insertD.map (fun l => l.map Prod.fst) ∧
  q1.updateD.map (fun l => l.map Prod.fst) = q2.updateD.map (fun l => l.map Prod.fst) ∧
  q1.deleteFlag = q2.deleteFlag

/-- Spec-side reading of the GenerateAssistantReply context window ("the
most recent N messages of the thread, oldest-first, excluding the
just-inserted user and placeholder rows, substituting each historical user
message's translated content for its original when translation is enabled,
and append the current content as the final turn"), for N = 10, over a
message table stored oldest-first. -/
def specHistory (msgs : List MessageRow) (tid : String) (userMsgId asstMsgId : Nat)
    (translateToEnglish : Bool) (current : String) : List ChatMsg :=
  let threadMsgs := msgs.filter (fun m => m.thread_id == tid)
  let recent := threadMsgs.drop (threadMsgs.length - 10)
  let hist := recent.filter (fun m => m.id ≠ userMsgId ∧ m.id ≠ asstMsgId)
  hist.map (fun m =>
    { role := m.role,
      content :=
        if translateToEnglish ∧ m.role = "user" ∧ m.translated_content.getD "" ≠ ""
        then m.translated_content.getD "" else m.content }) ++
  [{ role := "user", content := current }]

/-- The first exception the `try` body of `stream_generator` runs into, in
program order, for a run that passed the step-0 gate. -/
def firstExn (translateToEnglish autoTr : Bool) (o : GenOracle) : Option Exn :=
  match o.insertUserErr with
  | some e => some e
  | none =>
  match (if translateToEnglish then
           match o.translErr with
           | some e => some e
           | none => o.updUserErr
         else none) with
  | some e => some e
  | none =>
  match o.insertAsstErr with
  | some e => some e
  | none =>
  match o.fetchHistErr with
  | some e => some e
  | none =>
  match o.genErr with
  | some e => some e
  | none =>
  match o.updAsstErr with
  | some e => some e
  | none =>
  if autoTr then
    match o.asstTrErr with
    | some e => some e
    | none => o.updAsstTrErr
  else none

/-- Collect the leading run of `fragment` frames. -/
def leadingFragments : List Event → List String
  | Event.fragment t :: rest => t :: leadingFragments rest
  | _ => []

/-- The assistant-reply fragments of an emitted stream: the `fragment`
frames immediately following the `[PHASE:RESPONDING]` marker. -/
def replyFragments : List Event → List String
  | [] => []
  | Event.phase p :: rest =>
    if p = "RESPONDING" then leadingFragments rest else replyFragments rest
  | _ :: rest => replyFragments rest

/-- The `content` field of the message row with the given id, if any. -/
def msgContent (db : DB) (mid : Nat) : Option String :=
  ((db.messages.filter (fun m => m.id == mid)).head?).map (fun m => m.content)

/-- The `translated_content` field of the message row with the given id. -/
def msgTranslated (db : DB) (mid : Nat) : Option (Option String) :=
  ((db.messages.filter (fun m => m.id == mid)).head?).map
    (fun m => m.translated_content)

/-- Event-order monitor: one step of a left-to-right scan of the emitted
frames.  The state records how far the protocol has advanced
(0 = nothing yet, 1 = user message announced, 2 = translating,
3 = translation snapshot sent, 4 = placeholder announced, 5 = responding,
6 = translating the response, 7 = done); `none` means the frame is out of
order there.  Error frames are legal everywhere and advance nothing. -/
def stepOK (s : Nat) (e : Event) : Option Nat :=
  match e with
  | Event.errFrame _ => some s
  | Event.userMessageCreated _ _ _ _ => if s = 0 then some 1 else none
  | Event.phase n =>
    if n = "TRANSLATING" then (if s = 1 then some 2 else none)
    else if n = "RESPONDING" then (if s = 4 then some 5 else none)
    else if n = "TRANSLATING_RESPONSE" then (if s = 5 then some 6 else none)
    else none
  | Event.fragment _ => if s = 2 ∨ s = 5 ∨ s = 6 then some s else none
  | Event.userMessageFull _ _ _ _ => if s = 2 then some 3 else none
  | Event.assistantMessageId _ => if s = 1 ∨ s = 3 then some 4 else none
  | Event.done => if s = 5 ∨ s = 6 then some 7 else none

/-- Run the monitor over a frame list from a given state. -/
def runMonitor (s : Nat) : List Event → Option Nat
  | [] => some s
  | e :: es =>
    match stepOK s e with
    | some t => runMonitor t es
    | none => none

/-- Frame-kind discriminators used by the ordering statements. -/
def Event.isFragment : Event → Bool
  | Event.fragment _ => true
  | _ => false

def Event.isUserCreated : Event → Bool
  | Event.userMessageCreated _ _ _ _ => true
  | _ => false

def Event.isAsstId : Event → Bool
  | Event.assistantMessageId _ => true
  | _ => false

def Event.isDone : Event → Bool
  | Event.done => true
  | _ => false

def Event.isErrFrame : Event → Bool
  | Event.errFrame _ => true
  | _ => false

theorem stepOK_mono {s t : Nat} {e : Event} (h : stepOK s e = some t) : s ≤ t := by
  cases e <;> simp only [stepOK] at h <;>
    repeat' split at h
  all_goals simp_all
  all_goals omega

theorem runMonitor_append (s : Nat) (xs ys : List Event) :
    runMonitor s (xs ++ ys) =
      match runMonitor s xs with
      | some t => runMonitor t ys
      | none => none := by
  induction xs generalizing s with
  | nil => rfl
  | cons e xs ih =>
    simp only [List.cons_append, runMonitor]
    cases stepOK s e <;> simp [ih]

theorem runMonitor_mono {s t : Nat} {xs : List Event} (h : runMonitor s xs = some t) :
    s ≤ t := by
  induction xs generalizing s with
  | nil => simp [runMonitor] at h; omega
  | cons e es ih =>
    simp only [runMonitor] at h
    cases he : stepOK s e with
    | none => rw [he] at h; simp at h
    | some u => rw [he] at h; exact Nat.le_trans (stepOK_mono he) (ih h)

theorem runMonitor_handleExn (s : Nat) (e : Exn) : runMonitor s (handleExn e) = some s := by
  unfold handleExn
  split_ifs <;> simp [runMonitor, stepOK]

theorem runMonitor_frags {s : Nat} (hs : s = 2 ∨ s = 5 ∨ s = 6) (l : List String) :
    runMonitor s (l.map Event.fragment) = some s := by
  induction l with
  | nil => rfl
  | cons t l ih => simp only [List.map_cons, runMonitor, stepOK, if_pos hs]; exact ih

theorem monitor_genFinish (o : GenOracle) (db : DB) (aid : Nat) (autoTr : Bool) :
    runMonitor 5 (genFinish o db aid autoTr).1 = some 5 ∨
    runMonitor 5 (genFinish o db aid autoTr).1 = some 6 ∨
    runMonitor 5 (genFinish o db aid autoTr).1 = some 7 := by
  unfold genFinish
  cases autoTr with
  | false => simp [runMonitor, stepOK]
  | true =>
    have h6 := runMonitor_frags (Or.inr (Or.inr rfl)) o.asstTrFrags
    cases o.asstTrErr with
    | some e =>
      simp [runMonitor, stepOK, runMonitor_append, h6, runMonitor_handleExn]
    | none =>
      cases o.updAsstTrErr with
      | some e =>
        simp [runMonitor, stepOK, runMonitor_append, h6, runMonitor_handleExn]
      | none =>
        simp [runMonitor, stepOK, runMonitor_append, h6]

theorem monitor_genGenerate (o : GenOracle) (db : DB) (aid : Nat)
    (hist : List ChatMsg) (autoTr : Bool) :
    (runMonitor 5 (genGenerate o db aid hist autoTr).1).isSome := by
  unfold genGenerate
  have h5 := runMonitor_frags (Or.inr (Or.inl rfl)) o.genFrags
  cases o.genErr with
  | some e => simp [runMonitor_append, h5, runMonitor_handleExn]
  | none =>
    cases o.updAsstErr with
    | some e => simp [runMonitor_append, h5, runMonitor_handleExn]
    | none =>
      simp only []
      rcases monitor_genFinish o (db.updateMessageContent aid (String.join o.genFrags))
        aid autoTr with h | h | h <;>
        simp [runMonitor_append, h5, h]

theorem monitor_genRespond (o : GenOracle) (db : DB) (tid : String)
    (umid aid : Nat) (trEn autoTr : Bool) (inp : String) :
    (runMonitor 4 (genRespond o db tid umid aid trEn autoTr inp).1).isSome := by
  unfold genRespond
  cases o.fetchHistErr with
  | some e => simp [runMonitor, stepOK, runMonitor_handleExn]
  | none =>
    simp only []
    rcases hgg : genGenerate o db aid
      (formatHistory (selectHistoryDesc db tid).reverse aid umid trEn inp) autoTr
      with ⟨evs, db1, gi⟩
    have h := monitor_genGenerate o db aid
      (formatHistory (selectHistoryDesc db tid).reverse aid umid trEn inp) autoTr
    rw [hgg] at h
    rcases Option.isSome_iff_exists.mp h with ⟨t, ht⟩
    simp only [runMonitor] at ht
    simp [runMonitor, stepOK, hgg, ht]

theorem monitor_genAsst {s : Nat} (hs : s = 1 ∨ s = 3) (o : GenOracle) (db : DB)
    (tid : String) (umid : Nat) (trEn autoTr : Bool) (inp : String) :
    (runMonitor s (genAsst o db tid umid trEn autoTr inp).1).isSome := by
  unfold genAsst
  cases o.insertAsstErr with
  | some e => simp [runMonitor_handleExn]
  | none =>
    simp only []
    rcases hgg : genRespond o (db.insertMessage tid "assistant" "" none).1 tid
      umid (db.insertMessage tid "assistant" "" none).2.id trEn autoTr inp
      with ⟨evs, db1, gi⟩
    have h := monitor_genRespond o (db.insertMessage tid "assistant" "" none).1 tid
      umid (db.insertMessage tid "assistant" "" none).2.id trEn autoTr inp
    rw [hgg] at h
    rcases Option.isSome_iff_exists.mp h with ⟨t, ht⟩
    simp only [runMonitor] at ht
    simp [runMonitor, stepOK, if_pos hs, hgg, ht]

theorem monitor_genTranslate (o : GenOracle) (db : DB) (tid uc : String)
    (umid : Nat) (autoTr : Bool) :
    (runMonitor 1 (genTranslate o db tid uc umid autoTr).1).isSome := by
  unfold genTranslate
  have h2 := runMonitor_frags (Or.inl rfl) o.translFrags
  cases o.translErr with
  | some e => simp [runMonitor, stepOK, runMonitor_append, h2, runMonitor_handleExn]
  | none =>
    cases o.updUserErr with
    | some e => simp [runMonitor, stepOK, runMonitor_append, h2, runMonitor_handleExn]
    | none =>
      simp only []
      rcases hgg : genAsst o
        (db.updateMessageTranslated umid (String.join o.translFrags)) tid umid true
        autoTr (String.join o.translFrags) with ⟨evs, db1, gi⟩
      have h := monitor_genAsst (Or.inr rfl) o
        (db.updateMessageTranslated umid (String.join o.translFrags)) tid umid true
        autoTr (String.join o.translFrags)
      rw [hgg] at h
      rcases Option.isSome_iff_exists.mp h with ⟨t, ht⟩
      simp only [runMonitor] at ht
      simp [runMonitor, stepOK, runMonitor_append, h2, hgg, ht]

theorem monitor_genBody (o : GenOracle) (db : DB) (tid uc : String)
    (trEn autoTr : Bool) :
    (runMonitor 0 (genBody o db tid uc trEn autoTr).events).isSome := by
  unfold genBody
  cases o.insertUserErr with
  | some e => simp [runMonitor_handleExn]
  | none =>
    cases trEn with
    | true =>
      simp only []
      rcases hgg : genTranslate o
        (db.insertMessage tid "user" uc (some "ko")).1 tid uc
        (db.insertMessage tid "user" uc (some "ko")).2.id autoTr with ⟨evs, db1, gi⟩
      have h := monitor_genTranslate o
        (db.insertMessage tid "user" uc (some "ko")).1 tid uc
        (db.insertMessage tid "user" uc (some "ko")).2.id autoTr
      rw [hgg] at h
      rcases Option.isSome_iff_exists.mp h with ⟨t, ht⟩
      simp only [runMonitor] at ht
      simp [runMonitor, stepOK, hgg, ht]
    | false =>
      simp only []
      rcases hgg : genAsst o
        (db.insertMessage tid "user" uc (some "en")).1 tid
        (db.insertMessage tid "user" uc (some "en")).2.id false autoTr uc
        with ⟨evs, db1, gi⟩
      have h := monitor_genAsst (Or.inl rfl) o
        (db.insertMessage tid "user" uc (some "en")).1 tid
        (db.insertMessage tid "user" uc (some "en")).2.id false autoTr uc
      rw [hgg] at h
      rcases Option.isSome_iff_exists.mp h with ⟨t, ht⟩
      simp only [runMonitor] at ht
      simp [runMonitor, stepOK, hgg, ht]

theorem monitor_stream_generator (tid uc : String) (trEn autoTr : Bool)
    (uid : String) (o : GenOracle) (db : DB) :
    (runMonitor 0 (stream_generator tid uc trEn autoTr uid o db).events).isSome := by
  unfold stream_generator
  split
  · simp [runMonitor, stepOK]
  · exact monitor_genBody o db tid uc trEn autoTr

theorem runMonitor_split {s t : Nat} {xs ys : List Event}
    (h : runMonitor s (xs ++ ys) = some t) :
    ∃ u, runMonitor s xs = some u ∧ runMonitor u ys = some t := by
  rw [runMonitor_append] at h
  cases hx : runMonitor s xs with
  | none => rw [hx] at h; exact absurd h (by simp)
  | some u => rw [hx] at h; exact ⟨u, rfl, h⟩

theorem stateAt_isSome {es : List Event} (hacc : (runMonitor 0 es).isSome) (j : Nat) :
    ∃ a, runMonitor 0 (es.take j) = some a := by
  rcases Option.isSome_iff_exists.mp hacc with ⟨t, ht⟩
  have h : runMonitor 0 (es.take j ++ es.drop j) = some t := by
    rwa [List.take_append_drop]
  rcases runMonitor_split h with ⟨u, hu, _⟩
  exact ⟨u, hu⟩

theorem stateAt_step {es : List Event} (hacc : (runMonitor 0 es).isSome)
    {j : Nat} (hj : j < es.length) {a : Nat}
    (ha : runMonitor 0 (es.take j) = some a) :
    ∃ b, stepOK a (es.get ⟨j, hj⟩) = some b ∧
      runMonitor 0 (es.take (j + 1)) = some b := by
  rcases stateAt_isSome hacc (j + 1) with ⟨b, hb⟩
  have hb2 := hb
  have hts : es.take (j + 1) = es.take j ++ [es.get ⟨j, hj⟩] := by
    rw [List.take_succ, List.getElem?_eq_getElem hj]
    simp [List.get_eq_getElem]
  rw [hts] at hb2
  rcases runMonitor_split hb2 with ⟨u, hu, hrest⟩
  rw [ha] at hu
  cases hu
  simp only [runMonitor] at hrest
  cases hst : stepOK a (es.get ⟨j, hj⟩) with
  | none => rw [hst] at hrest; simp at hrest
  | some c =>
    rw [hst] at hrest
    simp only [runMonitor] at hrest
    injection hrest with hcb
    exact ⟨c, rfl, hb.trans (by rw [hcb])⟩

theorem stateAt_mono {es : List Event} {i j : Nat} (hij : i ≤ j) {a b : Nat}
    (ha : runMonitor 0 (es.take i) = some a)
    (hb : runMonitor 0 (es.take j) = some b) : a ≤ b := by
  have h1 : es.take j = es.take i ++ (es.take j).drop i := by
    conv_lhs => rw [← List.take_append_drop i (es.take j)]
    rw [List.take_take, Nat.min_eq_left hij]
  rw [h1] at hb
  rcases runMonitor_split hb with ⟨u, hu, hrest⟩
  rw [ha] at hu
  cases hu
  exact runMonitor_mono hrest

theorem take_get_mem {es : List Event} {j : Nat} (i : Fin es.length)
    (hij : i.1 < j) : es.get i ∈ es.take j := by
  rw [List.mem_iff_getElem?]
  refine ⟨i.1, ?_⟩
  rw [List.getElem?_take_of_lt hij, List.getElem?_eq_getElem i.2]
  simp [List.get_eq_getElem]

theorem mem_take_index {es : List Event} {j : Nat} {e : Event}
    (he : e ∈ es.take j) : ∃ i : Fin es.length, i.1 < j ∧ es.get i = e := by
  rw [List.mem_iff_getElem?] at he
  rcases he with ⟨n, hn⟩
  by_cases hnj : n < j
  · rw [List.getElem?_take_of_lt hnj] at hn
    have hlt : n < es.length := by
      by_contra hc
      rw [List.getElem?_eq_none (by omega)] at hn
      exact absurd hn (by simp)
    refine ⟨⟨n, hlt⟩, hnj, ?_⟩
    rw [List.getElem?_eq_getElem hlt] at hn
    injection hn with hn
  · exfalso
    have hlen : (es.take j).length ≤ n := by
      simp only [List.length_take]
      omega
    rw [List.getElem?_eq_none hlen] at hn
    exact Option.noConfusion hn

theorem userCreated_of_state_pos {xs : List Event} {s : Nat}
    (h : runMonitor 0 xs = some s) (hs : 1 ≤ s) :
    ∃ e ∈ xs, e.isUserCreated = true := by
  induction xs with
  | nil =>
    simp only [runMonitor] at h
    injection h with h
    omega
  | cons e es ih =>
    simp only [runMonitor] at h
    cases hst : stepOK 0 e with
    | none => rw [hst] at h; exact absurd h (by simp)
    | some u =>
      rw [hst] at h
      cases e with
      | errFrame m =>
        have hu : u = 0 := by
          simp only [stepOK] at hst
          injection hst with hst
          omega
        subst hu
        rcases ih h with ⟨ev, hev, hP⟩
        exact ⟨ev, List.mem_cons_of_mem _ hev, hP⟩
      | userMessageCreated a b c d =>
        exact ⟨Event.userMessageCreated a b c d, List.mem_cons_self _ _, rfl⟩
      | phase n =>
        simp only [stepOK] at hst
        split_ifs at hst <;> simp_all
      | fragment t => simp [stepOK] at hst
      | userMessageFull a b c d => simp [stepOK] at hst
      | assistantMessageId a => simp [stepOK] at hst
      | done => simp [stepOK] at hst

theorem state_ge_five_of_phaseR {xs : List Event} {t s : Nat}
    (h : runMonitor t xs = some s)
    (hmem : Event.phase "RESPONDING" ∈ xs) : 5 ≤ s := by
  induction xs generalizing t with
  | nil => simp at hmem
  | cons e es ih =>
    simp only [runMonitor] at h
    cases hst : stepOK t e with
    | none => rw [hst] at h; exact absurd h (by simp)
    | some u =>
      rw [hst] at h
      rcases List.mem_cons.mp hmem with he | he
      · have hu : u = 5 := by
          rw [← he] at hst
          simp only [stepOK] at hst
          split_ifs at hst <;> simp_all
        exact hu ▸ runMonitor_mono h
      · exact ih h he

theorem phaseR_of_state_ge_five {xs : List Event} {t s : Nat}
    (h : runMonitor t xs = some s) (ht : t < 5) (hs : 5 ≤ s) :
    Event.phase "RESPONDING" ∈ xs := by
  induction xs generalizing t with
  | nil =>
    simp only [runMonitor] at h
    injection h with h
    omega
  | cons e es ih =>
    simp only [runMonitor] at h
    cases hst : stepOK t e with
    | none => rw [hst] at h; exact absurd h (by simp)
    | some u =>
      rw [hst] at h
      by_cases hu : u < 5
      · exact List.mem_cons_of_mem _ (ih h hu)
      · have he : e = Event.phase "RESPONDING" := by
          cases e <;> simp only [stepOK] at hst <;>
            (repeat' split at hst) <;> simp_all <;> omega
        rw [he]
        exact List.mem_cons_self _ _

theorem phaseTR_of_state_six {xs : List Event} {t : Nat}
    (h : runMonitor t xs = some 6) (ht : t < 6) :
    Event.phase "TRANSLATING_RESPONSE" ∈ xs := by
  induction xs generalizing t with
  | nil =>
    simp only [runMonitor] at h
    injection h with h
    omega
  | cons e es ih =>
    simp only [runMonitor] at h
    cases hst : stepOK t e with
    | none => rw [hst] at h; exact absurd h (by simp)
    | some u =>
      rw [hst] at h
      by_cases hu : u < 6
      · exact List.mem_cons_of_mem _ (ih h hu)
      · rcases Nat.lt_or_ge u 7 with hu7 | hu7
        · have hu6 : u = 6 := by omega
          subst hu6
          have he : e = Event.phase "TRANSLATING_RESPONSE" := by
            cases e <;> simp only [stepOK] at hst <;>
              (repeat' split at hst) <;> simp_all <;> omega
          rw [he]
          exact List.mem_cons_self _ _
        · exfalso
          have := runMonitor_mono h
          omega

theorem stepOK_fragment {a b : Nat} {e : Event} (he : e.isFragment = true)
    (h : stepOK a e = some b) : (a = 2 ∨ a = 5 ∨ a = 6) ∧ b = a := by
  cases e
  case fragment t =>
    simp only [stepOK] at h
    split_ifs at h <;> simp_all
  all_goals simp [Event.isFragment] at he

theorem stepOK_asstId {a b : Nat} {e : Event} (he : e.isAsstId = true)
    (h : stepOK a e = some b) : (a = 1 ∨ a = 3) ∧ b = 4 := by
  cases e
  case assistantMessageId i =>
    simp only [stepOK] at h
    split_ifs at h <;> simp_all
  all_goals simp [Event.isAsstId] at he

theorem stepOK_done {a b : Nat} {e : Event} (he : e.isDone = true)
    (h : stepOK a e = some b) : (a = 5 ∨ a = 6) ∧ b = 7 := by
  cases e
  case done =>
    simp only [stepOK] at h
    split_ifs at h <;> simp_all
  all_goals simp [Event.isDone] at he

theorem monitor_order (es : List Event) (hacc : (runMonitor 0 es).isSome) :
    (∀ j : Fin es.length, (es.get j).isFragment = true →
       ∃ i : Fin es.length, i.1 < j.1 ∧ (es.get i).isUserCreated = true) ∧
    (∀ j k : Fin es.length, (es.get j).isFragment = true →
       (∀ i : Fin es.length, i.1 < j.1 → es.get i ≠ Event.phase "RESPONDING") →
       (es.get k).isAsstId = true → j.1 < k.1) ∧
    (∀ j k : Fin es.length, (es.get j).isFragment = true →
       (∃ i : Fin es.length, i.1 < j.1 ∧ es.get i = Event.phase "RESPONDING") →
       (∀ i : Fin es.length, i.1 < j.1 → es.get i ≠ Event.phase "TRANSLATING_RESPONSE") →
       (es.get k).isAsstId = true → k.1 < j.1) ∧
    (∀ j k : Fin es.length, (es.get j).isFragment = true →
       (es.get k).isDone = true → j.1 < k.1) := by
  have fragState : ∀ j : Fin es.length, (es.get j).isFragment = true →
      ∃ a, runMonitor 0 (es.take j.1) = some a ∧ (a = 2 ∨ a = 5 ∨ a = 6) ∧
        runMonitor 0 (es.take (j.1 + 1)) = some a := by
    intro j hf
    rcases stateAt_isSome hacc j.1 with ⟨a, ha⟩
    rcases stateAt_step hacc j.2 ha with ⟨b, hst, hb⟩
    rcases stepOK_fragment hf hst with ⟨hmem, hba⟩
    exact ⟨a, ha, hmem, hba ▸ hb⟩
  have asstState : ∀ k : Fin es.length, (es.get k).isAsstId = true →
      ∃ c, runMonitor 0 (es.take k.1) = some c ∧ (c = 1 ∨ c = 3) ∧
        runMonitor 0 (es.take (k.1 + 1)) = some 4 := by
    intro k hk
    rcases stateAt_isSome hacc k.1 with ⟨c, hc⟩
    rcases stateAt_step hacc k.2 hc with ⟨d, hst, hd⟩
    rcases stepOK_asstId hk hst with ⟨hmem, hd4⟩
    subst hd4
    exact ⟨c, hc, hmem, hd⟩
  have neFragAsst : ∀ j k : Fin es.length, (es.get j).isFragment = true →
      (es.get k).isAsstId = true → j.1 ≠ k.1 := by
    intro j k hf hk hjk
    have hek : k = j := Fin.ext hjk.symm
    subst hek
    cases hje : es.get k <;> rw [hje] at hf hk <;>
      simp_all [Event.isFragment, Event.isAsstId]
  refine ⟨?_, ?_, ?_, ?_⟩
  · intro j hf
    rcases fragState j hf with ⟨a, ha, hmem, _⟩
    have h1 : 1 ≤ a := by omega
    rcases userCreated_of_state_pos ha h1 with ⟨e, he, hP⟩
    rcases mem_take_index he with ⟨i, hij, hie⟩
    exact ⟨i, hij, hie ▸ hP⟩
  · intro j k hf hnoR hk
    rcases fragState j hf with ⟨a, ha, hmem, _⟩
    have ha5 : a < 5 := by
      by_contra hge
      have hR := phaseR_of_state_ge_five ha (by omega) (by omega)
      rcases mem_take_index hR with ⟨i, hij, hie⟩
      exact hnoR i hij hie
    have ha2 : a = 2 := by omega
    rcases asstState k hk with ⟨c, hc, hcmem, hc4⟩
    rcases Nat.lt_trichotomy j.1 k.1 with h | h | h
    · exact h
    · exact absurd h (neFragAsst j k hf hk)
    · exfalso
      have hle : k.1 + 1 ≤ j.1 := h
      have := stateAt_mono hle hc4 ha
      omega
  · intro j k hf hR hnoTR hk
    rcases fragState j hf with ⟨a, ha, hmem, haj1⟩
    have ha5 : 5 ≤ a := by
      rcases hR with ⟨i, hij, hie⟩
      have hmemR : Event.phase "RESPONDING" ∈ es.take j.1 := hie ▸ take_get_mem i hij
      exact state_ge_five_of_phaseR ha hmemR
    have ha6 : a ≠ 6 := by
      intro h6
      subst h6
      have hTR := phaseTR_of_state_six ha (by omega)
      rcases mem_take_index hTR with ⟨i, hij, hie⟩
      exact hnoTR i hij hie
    have ha5e : a = 5 := by omega
    rcases asstState k hk with ⟨c, hc, hcmem, _⟩
    rcases Nat.lt_trichotomy k.1 j.1 with h | h | h
    · exact h
    · exact absurd h.symm (neFragAsst j k hf hk)
    · exfalso
      have hle : j.1 + 1 ≤ k.1 := h
      have := stateAt_mono hle haj1 hc
      omega
  · intro j k hf hd
    rcases fragState j hf with ⟨a, ha, hmem, _⟩
    rcases stateAt_isSome hacc k.1 with ⟨c, hc⟩
    rcases stateAt_step hacc k.2 hc with ⟨d, hst, hdd⟩
    rcases stepOK_done hd hst with ⟨hcmem, hd7⟩
    subst hd7
    rcases Nat.lt_trichotomy j.1 k.1 with h | h | h
    · exact h
    · exfalso
      have hek : k = j := Fin.ext h.symm
      subst hek
      cases hje : es.get k <;> rw [hje] at hf hd <;>
        simp_all [Event.isFragment, Event.isDone]
    · exfalso
      have hle : k.1 + 1 ≤ j.1 := h
      have := stateAt_mono hle hdd ha
      omega

/-- A thread owned by `"U1"`, used by the concrete witnesses. -/
def threadT1 : ThreadRow := { id := "T1", user_id := some "U1", title := "t" }

/-- A store holding just `threadT1`, used by the concrete witnesses. -/
def dbT : DB :=
  { threads := [threadT1], messages := [], bookmarked := [], users := [],
    clock := 0, nextId := 0 }

/-- An all-success effect oracle, used by the concrete witnesses. -/
def oT : GenOracle :=
  { ownCheckErr := false, insertUserErr := none, translFrags := ["He", "llo"],
    translErr := none, updUserErr := none, insertAsstErr := none,
    fetchHistErr := none, genFrags := ["Hi ", "there"], genErr := none,
    updAsstErr := none, asstTrFrags := ["안"], asstTrErr := none,
    updAsstTrErr := none }

/-- C3: for every chat turn, the event stream never emits events out of the
fixed order: the `user_message_created` event precedes every
translation-phase `fragment` (a fragment with no `[PHASE:RESPONDING]` marker
before it), every translation-phase fragment precedes the
`assistant_message_id` event, the `assistant_message_id` event precedes
every assistant-reply fragment (a fragment after `[PHASE:RESPONDING]` and
before any `[PHASE:TRANSLATING_RESPONSE]`), and every fragment precedes the
`[DONE]` sentinel. -/
theorem C3_event_order (tid uc : String) (trEn autoTr : Bool)
    (uid : String) (o : GenOracle) (db : DB) (es : List Event)
    (hes : es = (stream_generator tid uc trEn autoTr uid o db).events) :
    (∀ j : Fin es.length, (es.get j).isFragment = true →
       ∃ i : Fin es.length, i.1 < j.1 ∧ (es.get i).isUserCreated = true) ∧
    (∀ j k : Fin es.length, (es.get j).isFragment = true →
       (∀ i : Fin es.length, i.1 < j.1 → es.get i ≠ Event.phase "RESPONDING") →
       (es.get k).isAsstId = true → j.1 < k.1) ∧
    (∀ j k : Fin es.length, (es.get j).isFragment = true →
       (∃ i : Fin es.length, i.1 < j.1 ∧ es.get i = Event.phase "RESPONDING") →
       (∀ i : Fin es.length, i.1 < j.1 → es.get i ≠ Event.phase "TRANSLATING_RESPONSE") →
       (es.get k).isAsstId = true → k.1 < j.1) ∧
    (∀ j k : Fin es.length, (es.get j).isFragment = true →
       (es.get k).isDone = true → j.1 < k.1) := by
  subst hes
  exact monitor_order _ (monitor_stream_generator tid uc trEn autoTr uid o db)

/-- Witness for C3 at a concrete run: the fragment at index 2 of the happy
translated turn is preceded by a `user_message_created` event. -/
theorem C3_event_order_witness :
    ∃ i : Fin (stream_generator "T1" "hello" true true "U1" oT dbT).events.length,
      i.1 < 2 ∧
      ((stream_generator "T1" "hello" true true "U1" oT dbT).events.get i).isUserCreated
        = true := by
  have h := (C3_event_order "T1" "hello" true true "U1" oT dbT
    (stream_generator "T1" "hello" true true "U1" oT dbT).events rfl).1
  exact h ⟨2, by decide⟩ (by decide)

/-- Evaluation of the whole orchestrator on a run whose effects succeed
through the persist of the generated reply (step 5's update); the optional
response-translation tail stays abstract as `genFinish`. -/
theorem run_ok (tid uc : String) (trEn autoTr : Bool) (uid : String)
    (o : GenOracle) (db : DB)
    (hgate : ownershipBlocked db tid uid o.ownCheckErr = false)
    (h1 : o.insertUserErr = none)
    (h2 : trEn = true → o.translErr = none ∧ o.updUserErr = none)
    (h3 : o.insertAsstErr = none) (h4 : o.fetchHistErr = none)
    (h5 : o.genErr = none) (h6 : o.updAsstErr = none) :
    stream_generator tid uc trEn autoTr uid o db =
      (fun (inp lang : String) =>
        (fun (s1 : DB × MessageRow) =>
          (fun (db1 : DB) =>
            (fun (s2 : DB × MessageRow) =>
              (fun (hist : List ChatMsg) (db3 : DB) =>
                { events :=
                    Event.userMessageCreated s1.2.id uc lang "" ::
                      ((if trEn then
                          Event.phase "TRANSLATING" ::
                            (o.translFrags.map Event.fragment ++
                              [Event.userMessageFull s1.2.id uc
                                (String.join o.translFrags) "ko"])
                        else []) ++
                        (Event.assistantMessageId s2.2.id ::
                          Event.phase "RESPONDING" ::
                            (o.genFrags.map Event.fragment ++
                              (genFinish o db3 s2.2.id autoTr).1))),
                  db := (genFinish o db3 s2.2.id autoTr).2,
                  genInput := some hist }
              : List ChatMsg → DB → GenOut)
                (formatHistory ((selectHistoryDesc s2.1 tid).reverse) s2.2.id
                  s1.2.id trEn inp)
                (s2.1.updateMessageContent s2.2.id (String.join o.genFrags)))
              (db1.insertMessage tid "assistant" "" none))
            (if trEn then
              s1.1.updateMessageTranslated s1.2.id (String.join o.translFrags)
            else s1.1))
          (db.insertMessage tid "user" uc (some lang)))
        (if trEn then String.join o.translFrags else uc)
        (if trEn then "ko" else "en") := by
  unfold stream_generator
  rw [hgate]
  simp only [Bool.false_eq_true, if_false]
  unfold genBody
  rw [h1]
  cases trEn with
  | true =>
    rcases h2 rfl with ⟨h2a, h2b⟩
    simp only [if_true]
    unfold genTranslate
    rw [h2a, h2b]
    unfold genAsst
    rw [h3]
    unfold genRespond
    rw [h4]
    unfold genGenerate
    rw [h5, h6]
    simp [List.append_assoc]
  | false =>
    simp only [Bool.false_eq_true, if_false]
    unfold genAsst
    rw [h3]
    unfold genRespond
    rw [h4]
    unfold genGenerate
    rw [h5, h6]
    simp [List.append_assoc]

theorem map_id_of_ne {l : List MessageRow} {mid : Nat} {f : MessageRow → MessageRow}
    (hf : ∀ m, m.id ≠ mid → f m = m) (h : ∀ m ∈ l, m.id ≠ mid) : l.map f = l := by
  induction l with
  | nil => rfl
  | cons a l ih =>
    simp only [List.map_cons, hf a (h a (List.mem_cons_self a l)),
      ih (fun m hm => h m (List.mem_cons_of_mem a hm))]

theorem filter_head_at (mid : Nat) (pre : List MessageRow) (m : MessageRow)
    (post : List MessageRow)
    (hpre : ∀ x ∈ pre, x.id ≠ mid) (hm : m.id = mid) :
    ((pre ++ m :: post).filter (fun x => x.id == mid)).head? = some m := by
  rw [List.filter_append]
  have hnil : pre.filter (fun x => x.id == mid) = [] := by
    rw [List.filter_eq_nil_iff]
    intro x hx
    simpa using hpre x hx
  rw [hnil]
  simp [List.filter_cons, hm]

theorem genFinish_db (o : GenOracle) (db : DB) (aid : Nat) (autoTr : Bool) :
    (genFinish o db aid autoTr).2 = db ∨
    (genFinish o db aid autoTr).2 =
      db.updateMessageTranslated aid (String.join o.asstTrFrags) := by
  unfold genFinish
  cases autoTr with
  | false => exact Or.inl rfl
  | true =>
    cases o.asstTrErr with
    | some e => exact Or.inl rfl
    | none =>
      cases o.updAsstTrErr with
      | some e => exact Or.inl rfl
      | none => exact Or.inr rfl

theorem filter_head_map {l : List MessageRow} {f : MessageRow → MessageRow} {mid : Nat}
    (hid : ∀ m, (f m).id = m.id) :
    ((l.map f).filter (fun x => x.id == mid)).head? =
      ((l.filter (fun x => x.id == mid)).head?).map f := by
  induction l with
  | nil => rfl
  | cons a l ih =>
    simp only [List.map_cons, List.filter_cons, hid a]
    cases h : (a.id == mid) with
    | false => simpa [h] using ih
    | true => simp [h]

theorem msgTranslated_update_ne {db : DB} {aid mid : Nat} {t : String}
    (hne : mid ≠ aid) :
    msgTranslated (db.updateMessageTranslated aid t) mid = msgTranslated db mid := by
  unfold msgTranslated DB.updateMessageTranslated
  simp only []
  rw [filter_head_map (by intro m; by_cases h : m.id = aid <;> simp [h])]
  cases hh : (db.messages.filter (fun x => x.id == mid)).head? with
  | none => rfl
  | some m =>
    have hmem : m ∈ db.messages.filter (fun x => x.id == mid) :=
      List.mem_of_mem_head? (by rw [hh]; exact rfl)
    have hmid : m.id = mid := by simpa using (List.mem_filter.mp hmem).2
    have : m.id ≠ aid := by rw [hmid]; exact hne
    simp [this]

theorem msgContent_updateTranslated (db : DB) (aid : Nat) (t : String) (mid : Nat) :
    msgContent (db.updateMessageTranslated aid t) mid = msgContent db mid := by
  unfold msgContent DB.updateMessageTranslated
  simp only []
  rw [filter_head_map (by intro m; by_cases h : m.id = aid <;> simp [h])]
  cases hh : (db.messages.filter (fun x => x.id == mid)).head? with
  | none => rfl
  | some m => by_cases h : m.id = aid <;> simp [h]

theorem msgTranslated_updateContent (db : DB) (aid : Nat) (c : String) (mid : Nat) :
    msgTranslated (db.updateMessageContent aid c) mid = msgTranslated db mid := by
  unfold msgTranslated DB.updateMessageContent
  simp only []
  rw [filter_head_map (by intro m; by_cases h : m.id = aid <;> simp [h])]
  cases hh : (db.messages.filter (fun x => x.id == mid)).head? with
  | none => rfl
  | some m => by_cases h : m.id = aid <;> simp [h]

theorem msgTranslated_insert_ne (db : DB) (tid role c : String)
    (orig : Option String) (mid : Nat) (hne : mid ≠ db.nextId) :
    msgTranslated (db.insertMessage tid role c orig).1 mid = msgTranslated db mid := by
  unfold msgTranslated DB.insertMessage
  simp only [List.filter_append]
  simp [List.filter_cons, if_neg (Ne.symm hne)]

theorem msgContent_insert_ne (db : DB) (tid role c : String)
    (orig : Option String) (mid : Nat) (hne : mid ≠ db.nextId) :
    msgContent (db.insertMessage tid role c orig).1 mid = msgContent db mid := by
  unfold msgContent DB.insertMessage
  simp only [List.filter_append]
  simp [List.filter_cons, if_neg (Ne.symm hne)]

theorem ids_lt_insert (db : DB) (hid : ∀ m ∈ db.messages, m.id < db.nextId)
    (tid role c : String) (orig : Option String) :
    ∀ m ∈ (db.insertMessage tid role c orig).1.messages,
      m.id < (db.insertMessage tid role c orig).1.nextId := by
  intro m hm
  unfold DB.insertMessage at hm ⊢
  simp only [List.mem_append, List.mem_singleton] at hm
  rcases hm with hm | hm
  · exact Nat.lt_trans (hid m hm) (Nat.lt_succ_self _)
  · subst hm; exact Nat.lt_succ_self _

theorem ids_lt_updateTranslated (db : DB)
    (hid : ∀ m ∈ db.messages, m.id < db.nextId) (aid : Nat) (t : String) :
    ∀ m ∈ (db.updateMessageTranslated aid t).messages,
      m.id < (db.updateMessageTranslated aid t).nextId := by
  intro m hm
  unfold DB.updateMessageTranslated at hm ⊢
  simp only [List.mem_map] at hm
  rcases hm with ⟨y, hy, hym⟩
  subst hym
  have hylt := hid y hy
  by_cases h : y.id = aid
  · simp only [if_pos h]
    exact h ▸ hylt
  · simp only [if_neg h]
    exact hylt

theorem msgTranslated_after_user_update (db : DB)
    (hid : ∀ m ∈ db.messages, m.id < db.nextId)
    (tid uc : String) (orig : Option String) (T : String) :
    msgTranslated
      ((db.insertMessage tid "user" uc orig).1.updateMessageTranslated
        (db.insertMessage tid "user" uc orig).2.id T) db.nextId =
      some (some T) := by
  unfold msgTranslated DB.updateMessageTranslated DB.insertMessage
  simp only [List.map_append, List.map_cons, List.map_nil, if_pos]
  rw [filter_head_at db.nextId _ _ [] ?hpre rfl]
  · rfl
  case hpre =>
    intro x hx
    rcases List.mem_map.mp hx with ⟨y, hy, hyx⟩
    subst hyx
    have hylt := hid y hy
    by_cases h : y.id = db.nextId
    · omega
    · simp only [if_neg h]
      exact h

theorem msgContent_after_asst_update (db1 : DB)
    (hid : ∀ m ∈ db1.messages, m.id < db1.nextId) (tid J : String) :
    msgContent
      ((db1.insertMessage tid "assistant" "" none).1.updateMessageContent
        (db1.insertMessage tid "assistant" "" none).2.id J) db1.nextId =
      some J := by
  unfold msgContent DB.updateMessageContent DB.insertMessage
  simp only [List.map_append, List.map_cons, List.map_nil, if_pos]
  rw [filter_head_at db1.nextId _ _ [] ?hpre rfl]
  · rfl
  case hpre =>
    intro x hx
    rcases List.mem_map.mp hx with ⟨y, hy, hyx⟩
    subst hyx
    have hylt := hid y hy
    by_cases h : y.id = db1.nextId
    · omega
    · simp only [if_neg h]
      exact h

theorem leadingFragments_map_frag (l : List String) :
    leadingFragments (l.map Event.fragment) = l := by
  induction l with
  | nil => rfl
  | cons t l ih => simp [leadingFragments, ih]

theorem leadingFragments_frag_append (l : List String) (e : Event)
    (rest : List Event) (he : e.isFragment = false) :
    leadingFragments (l.map Event.fragment ++ e :: rest) = l := by
  induction l with
  | nil =>
    cases e <;> simp_all [Event.isFragment, leadingFragments]
  | cons t l ih => simp [leadingFragments, ih]

theorem replyFragments_frags_skip (l : List String) (rest : List Event) :
    replyFragments (l.map Event.fragment ++ rest) = replyFragments rest := by
  induction l with
  | nil => rfl
  | cons t l ih => simp [replyFragments, ih]

theorem genFinish_head_not_frag (o : GenOracle) (db : DB) (aid : Nat)
    (autoTr : Bool) :
    ∃ e rest, (genFinish o db aid autoTr).1 = e :: rest ∧ e.isFragment = false := by
  unfold genFinish
  cases autoTr with
  | false => exact ⟨Event.done, [], rfl, rfl⟩
  | true =>
    cases o.asstTrErr with
    | some e => exact ⟨Event.phase "TRANSLATING_RESPONSE", _, rfl, rfl⟩
    | none =>
      cases o.updAsstTrErr with
      | some e => exact ⟨Event.phase "TRANSLATING_RESPONSE", _, rfl, rfl⟩
      | none => exact ⟨Event.phase "TRANSLATING_RESPONSE", _, rfl, rfl⟩

/-- C1: for every chat turn reaching generation, the content appended as the
final user turn of the generation input equals the raw inbound content when
`translateToEnglish` is false, and equals the concatenation of the
translation stream's fragments when it is true; in the latter case the
persisted user Message's `translated_content` equals that same string. -/
theorem C1_generation_input (tid uc : String) (trEn autoTr : Bool) (uid : String)
    (o : GenOracle) (db : DB) (hWF : db.WF)
    (hgate : ownershipBlocked db tid uid o.ownCheckErr = false)
    (h1 : o.insertUserErr = none)
    (h2 : trEn = true → o.translErr = none ∧ o.updUserErr = none)
    (h3 : o.insertAsstErr = none) (h4 : o.fetchHistErr = none)
    (h5 : o.genErr = none) (h6 : o.updAsstErr = none) :
    (trEn = false →
      ∃ hist, (stream_generator tid uc trEn autoTr uid o db).genInput = some hist ∧
        hist.getLast? = some { role := "user", content := uc }) ∧
    (trEn = true →
      (∃ hist, (stream_generator tid uc trEn autoTr uid o db).genInput = some hist ∧
        hist.getLast? =
          some { role := "user", content := String.join o.translFrags }) ∧
      msgTranslated (stream_generator tid uc trEn autoTr uid o db).db db.nextId =
        some (some (String.join o.translFrags))) := by
  rw [run_ok tid uc trEn autoTr uid o db hgate h1 h2 h3 h4 h5 h6]
  constructor
  · intro h
    subst h
    simp only [Bool.false_eq_true, if_false]
    refine ⟨_, rfl, ?_⟩
    unfold formatHistory
    exact List.getLast?_concat _
  · intro h
    subst h
    simp only [if_true]
    constructor
    · refine ⟨_, rfl, ?_⟩
      unfold formatHistory
      exact List.getLast?_concat _
    · rcases genFinish_db o
        ((((db.insertMessage tid "user" uc (some "ko")).1.updateMessageTranslated
            (db.insertMessage tid "user" uc (some "ko")).2.id
            (String.join o.translFrags)).insertMessage
              tid "assistant" "" none).1.updateMessageContent
          (((db.insertMessage tid "user" uc (some "ko")).1.updateMessageTranslated
              (db.insertMessage tid "user" uc (some "ko")).2.id
              (String.join o.translFrags)).insertMessage
                tid "assistant" "" none).2.id
          (String.join o.genFrags))
        ((((db.insertMessage tid "user" uc (some "ko")).1.updateMessageTranslated
            (db.insertMessage tid "user" uc (some "ko")).2.id
            (String.join o.translFrags)).insertMessage
              tid "assistant" "" none).2.id)
        autoTr with hg | hg <;> rw [hg]
      · rw [msgTranslated_updateContent, msgTranslated_insert_ne]
        · exact msgTranslated_after_user_update db (fun m hm => (hWF.2 m hm).2)
            tid uc (some "ko") (String.join o.translFrags)
        · simp [DB.insertMessage, DB.updateMessageTranslated]
      · rw [msgTranslated_update_ne, msgTranslated_updateContent,
          msgTranslated_insert_ne]
        · exact msgTranslated_after_user_update db (fun m hm => (hWF.2 m hm).2)
            tid uc (some "ko") (String.join o.translFrags)
        · simp [DB.insertMessage, DB.updateMessageTranslated]
        · simp [DB.insertMessage, DB.updateMessageTranslated]

/-- Witness for C1 at a concrete translated turn. -/
theorem C1_generation_input_witness :
    msgTranslated (stream_generator "T1" "hello" true true "U1" oT dbT).db dbT.nextId =
      some (some (String.join oT.translFrags)) := by
  have h := C1_generation_input "T1" "hello" true true "U1" oT dbT (by decide)
    (by decide) rfl (fun _ => ⟨rfl, rfl⟩) rfl rfl rfl rfl
  exact (h.2 rfl).2

/-- C2: for every chat turn that completes the generation step and its
persist, the concatenation, in emission order, of the assistant-reply
fragment frames (those following `[PHASE:RESPONDING]`) equals the string
persisted into the assistant placeholder Message's `content`. -/
theorem C2_reply_stream_lossless (tid uc : String) (trEn autoTr : Bool)
    (uid : String) (o : GenOracle) (db : DB) (hWF : db.WF)
    (hgate : ownershipBlocked db tid uid o.ownCheckErr = false)
    (h1 : o.insertUserErr = none)
    (h2 : trEn = true → o.translErr = none ∧ o.updUserErr = none)
    (h3 : o.insertAsstErr = none) (h4 : o.fetchHistErr = none)
    (h5 : o.genErr = none) (h6 : o.updAsstErr = none) :
    msgContent (stream_generator tid uc trEn autoTr uid o db).db (db.nextId + 1) =
      some (String.join
        (replyFragments (stream_generator tid uc trEn autoTr uid o db).events)) := by
  rw [run_ok tid uc trEn autoTr uid o db hgate h1 h2 h3 h4 h5 h6]
  simp only []
  cases trEn with
  | true =>
    simp only [if_true]
    rcases genFinish_head_not_frag o
      ((((db.insertMessage tid "user" uc (some "ko")).1.updateMessageTranslated
          (db.insertMessage tid "user" uc (some "ko")).2.id
          (String.join o.translFrags)).insertMessage
            tid "assistant" "" none).1.updateMessageContent
        (((db.insertMessage tid "user" uc (some "ko")).1.updateMessageTranslated
            (db.insertMessage tid "user" uc (some "ko")).2.id
            (String.join o.translFrags)).insertMessage
              tid "assistant" "" none).2.id
        (String.join o.genFrags))
      ((((db.insertMessage tid "user" uc (some "ko")).1.updateMessageTranslated
          (db.insertMessage tid "user" uc (some "ko")).2.id
          (String.join o.translFrags)).insertMessage
            tid "assistant" "" none).2.id)
      autoTr with ⟨e, rest, hfe, hne⟩
    rw [hfe]
    conv_rhs => simp [replyFragments, replyFragments_frags_skip,
      leadingFragments_frag_append _ _ _ hne]
    rcases genFinish_db o
      ((((db.insertMessage tid "user" uc (some "ko")).1.updateMessageTranslated
          (db.insertMessage tid "user" uc (some "ko")).2.id
          (String.join o.translFrags)).insertMessage
            tid "assistant" "" none).1.updateMessageContent
        (((db.insertMessage tid "user" uc (some "ko")).1.updateMessageTranslated
            (db.insertMessage tid "user" uc (some "ko")).2.id
            (String.join o.translFrags)).insertMessage
              tid "assistant" "" none).2.id
        (String.join o.genFrags))
      ((((db.insertMessage tid "user" uc (some "ko")).1.updateMessageTranslated
          (db.insertMessage tid "user" uc (some "ko")).2.id
          (String.join o.translFrags)).insertMessage
            tid "assistant" "" none).2.id)
      autoTr with hg | hg <;> rw [hg]
    · have hids : ∀ m ∈ ((db.insertMessage tid "user" uc
          (some "ko")).1.updateMessageTranslated
          (db.insertMessage tid "user" uc (some "ko")).2.id
          (String.join o.translFrags)).messages,
          m.id < ((db.insertMessage tid "user" uc
            (some "ko")).1.updateMessageTranslated
            (db.insertMessage tid "user" uc (some "ko")).2.id
            (String.join o.translFrags)).nextId :=
        ids_lt_updateTranslated _ (ids_lt_insert db (fun m hm => (hWF.2 m hm).2)
          tid "user" uc (some "ko")) _ _
      exact msgContent_after_asst_update _ hids tid (String.join o.genFrags)
    · rw [msgContent_updateTranslated]
      have hids : ∀ m ∈ ((db.insertMessage tid "user" uc
          (some "ko")).1.updateMessageTranslated
          (db.insertMessage tid "user" uc (some "ko")).2.id
          (String.join o.translFrags)).messages,
          m.id < ((db.insertMessage tid "user" uc
            (some "ko")).1.updateMessageTranslated
            (db.insertMessage tid "user" uc (some "ko")).2.id
            (String.join o.translFrags)).nextId :=
        ids_lt_updateTranslated _ (ids_lt_insert db (fun m hm => (hWF.2 m hm).2)
          tid "user" uc (some "ko")) _ _
      exact msgContent_after_asst_update _ hids tid (String.join o.genFrags)
  | false =>
    simp only [Bool.false_eq_true, if_false]
    rcases genFinish_head_not_frag o
      (((db.insertMessage tid "user" uc (some "en")).1.insertMessage
          tid "assistant" "" none).1.updateMessageContent
        (((db.insertMessage tid "user" uc (some "en")).1.insertMessage
            tid "assistant" "" none).2.id)
        (String.join o.genFrags))
      (((db.insertMessage tid "user" uc (some "en")).1.insertMessage
          tid "assistant" "" none).2.id)
      autoTr with ⟨e, rest, hfe, hne⟩
    rw [hfe]
    conv_rhs => simp [replyFragments, replyFragments_frags_skip,
      leadingFragments_frag_append _ _ _ hne]
    rcases genFinish_db o
      (((db.insertMessage tid "user" uc (some "en")).1.insertMessage
          tid "assistant" "" none).1.updateMessageContent
        (((db.insertMessage tid "user" uc (some "en")).1.insertMessage
            tid "assistant" "" none).2.id)
        (String.join o.genFrags))
      (((db.insertMessage tid "user" uc (some "en")).1.insertMessage
          tid "assistant" "" none).2.id)
      autoTr with hg | hg <;> rw [hg]
    · exact msgContent_after_asst_update _ (ids_lt_insert db
        (fun m hm => (hWF.2 m hm).2) tid "user" uc (some "en")) tid
        (String.join o.genFrags)
    · rw [msgContent_updateTranslated]
      exact msgContent_after_asst_update _ (ids_lt_insert db
        (fun m hm => (hWF.2 m hm).2) tid "user" uc (some "en")) tid
        (String.join o.genFrags)

/-- Witness for C2 at a concrete translated turn. -/
theorem C2_reply_stream_lossless_witness :
    msgContent (stream_generator "T1" "hello" true true "U1" oT dbT).db
        (dbT.nextId + 1) =
      some (String.join
        (replyFragments (stream_generator "T1" "hello" true true "U1" oT dbT).events)) :=
  C2_reply_stream_lossless "T1" "hello" true true "U1" oT dbT (by decide) (by decide)
    rfl (fun _ => ⟨rfl, rfl⟩) rfl rfl rfl rfl

theorem insertDescCreated_all_ge (a : MessageRow) (l : List MessageRow)
    (h : ∀ b ∈ l, a.created_at ≤ b.created_at) :
    insertDescCreated a l = l ++ [a] := by
  induction l with
  | nil => rfl
  | cons b l ih =>
    have hb := h b (List.mem_cons_self b l)
    simp only [insertDescCreated,
      if_neg (by omega : ¬ b.created_at < a.created_at)]
    rw [ih (fun c hc => h c (List.mem_cons_of_mem _ hc))]
    rfl

theorem sortDescCreated_of_ascending (l : List MessageRow)
    (h : l.Pairwise (fun x y => x.created_at < y.created_at)) :
    sortDescCreated l = l.reverse := by
  induction l with
  | nil => rfl
  | cons a l ih =>
    rw [List.pairwise_cons] at h
    show insertDescCreated a (sortDescCreated l) = (a :: l).reverse
    rw [ih h.2, insertDescCreated_all_ge a l.reverse
      (fun b hb => le_of_lt (h.1 b (List.mem_reverse.mp hb)))]
    simp

theorem selectHistoryDesc_reverse (db : DB) (tid : String)
    (h : db.messages.Pairwise (fun x y => x.created_at < y.created_at)) :
    (selectHistoryDesc db tid).reverse =
      (db.messages.filter (fun m => m.thread_id == tid)).drop
        ((db.messages.filter (fun m => m.thread_id == tid)).length - 10) := by
  unfold selectHistoryDesc
  rw [sortDescCreated_of_ascending _ (h.sublist (List.filter_sublist _))]
  rw [← List.rtake_eq_reverse_take_reverse]
  rfl

theorem subst_cond_eq (m : MessageRow) (trEn : Bool) :
    (if m.role = "user" ∧ truthyOpt m.translated_content ∧ trEn
     then m.translated_content.getD "" else m.content) =
    (if trEn ∧ m.role = "user" ∧ m.translated_content.getD "" ≠ ""
     then m.translated_content.getD "" else m.content) := by
  have hiff : (m.role = "user" ∧ truthyOpt m.translated_content = true ∧ trEn = true) ↔
      (trEn = true ∧ m.role = "user" ∧ m.translated_content.getD "" ≠ "") := by
    cases htc : m.translated_content with
    | none => simp [truthyOpt]
    | some s =>
      simp only [truthyOpt, Option.getD_some, decide_eq_true_eq]
      tauto
  exact if_congr hiff rfl rfl

theorem formatHistory_eq_filter_map (recent : List MessageRow) (aid umid : Nat)
    (trEn : Bool) (inp : String) :
    formatHistory recent aid umid trEn inp =
      (recent.filter (fun m => decide (m.id ≠ umid ∧ m.id ≠ aid))).map (fun m =>
        { role := m.role,
          content :=
            if trEn ∧ m.role = "user" ∧ m.translated_content.getD "" ≠ ""
            then m.translated_content.getD "" else m.content }) ++
      [{ role := "user", content := inp }] := by
  unfold formatHistory
  congr 1
  induction recent with
  | nil => rfl
  | cons m l ih =>
    simp only [List.filterMap_cons, List.filter_cons]
    by_cases h1 : m.id = aid ∨ m.id = umid
    · have hd : decide (m.id ≠ umid ∧ m.id ≠ aid) = false := by
        rcases h1 with h | h <;> simp [h]
      rw [if_pos h1] at *
      simp only [hd, Bool.false_eq_true, if_false]
      exact ih
    · have hd : decide (m.id ≠ umid ∧ m.id ≠ aid) = true := by
        push_neg at h1
        simp [h1.1, h1.2]
      rw [if_neg h1]
      simp only [hd, if_true, List.map_cons]
      rw [ih, subst_cond_eq]

theorem genGenerate_genInput (o : GenOracle) (db : DB) (aid : Nat)
    (hist : List ChatMsg) (autoTr : Bool) :
    (genGenerate o db aid hist autoTr).2.2 = some hist := by
  unfold genGenerate
  cases o.genErr with
  | some e => rfl
  | none =>
    cases o.updAsstErr with
    | some e => rfl
    | none => simp

theorem WF_insertMessage (db : DB) (h : db.WF) (tid role c : String)
    (orig : Option String) : (db.insertMessage tid role c orig).1.WF := by
  rcases h with ⟨hpw, hb⟩
  unfold DB.insertMessage DB.WF
  constructor
  · rw [List.pairwise_append]
    refine ⟨hpw, List.pairwise_singleton _ _, ?_⟩
    intro a ha b hb2
    simp only [List.mem_singleton] at hb2
    subst hb2
    exact (hb a ha).1
  · intro m hm
    simp only [List.mem_append, List.mem_singleton] at hm
    rcases hm with hm | hm
    · exact ⟨Nat.lt_trans (hb m hm).1 (Nat.lt_succ_self _),
        Nat.lt_trans (hb m hm).2 (Nat.lt_succ_self _)⟩
    · subst hm
      exact ⟨Nat.lt_succ_self _, Nat.lt_succ_self _⟩

theorem WF_updateMessageTranslated (db : DB) (h : db.WF) (aid : Nat)
    (t : String) : (db.updateMessageTranslated aid t).WF := by
  rcases h with ⟨hpw, hb⟩
  unfold DB.updateMessageTranslated DB.WF
  constructor
  · refine hpw.map _ ?_
    intro a b hab
    by_cases h1 : a.id = aid <;> by_cases h2 : b.id = aid <;> simp [h1, h2, hab]
  · intro m hm
    simp only [List.mem_map] at hm
    rcases hm with ⟨y, hy, hym⟩
    subst hym
    have := hb y hy
    by_cases h1 : y.id = aid
    · simp only [if_pos h1]
      exact ⟨this.1, h1 ▸ this.2⟩
    · simp only [if_neg h1]
      exact this

theorem genInput_ok (tid uc : String) (trEn autoTr : Bool) (uid : String)
    (o : GenOracle) (db : DB)
    (hgate : ownershipBlocked db tid uid o.ownCheckErr = false)
    (h1 : o.insertUserErr = none)
    (h2 : trEn = true → o.translErr = none ∧ o.updUserErr = none)
    (h3 : o.insertAsstErr = none) (h4 : o.fetchHistErr = none) :
    (stream_generator tid uc trEn autoTr uid o db).genInput =
      (fun (s1 : DB × MessageRow) =>
        (fun (db1 : DB) =>
          (fun (s2 : DB × MessageRow) =>
            some (formatHistory ((selectHistoryDesc s2.1 tid).reverse) s2.2.id
              s1.2.id trEn (if trEn then String.join o.translFrags else uc)))
            (db1.insertMessage tid "assistant" "" none))
          (if trEn then
            s1.1.updateMessageTranslated s1.2.id (String.join o.translFrags)
          else s1.1))
        (db.insertMessage tid "user" uc (some (if trEn then "ko" else "en"))) := by
  unfold stream_generator
  rw [hgate]
  simp only [Bool.false_eq_true, if_false]
  unfold genBody
  rw [h1]
  cases trEn with
  | true =>
    rcases h2 rfl with ⟨h2a, h2b⟩
    simp only [if_true]
    unfold genTranslate
    rw [h2a, h2b]
    unfold genAsst
    rw [h3]
    unfold genRespond
    rw [h4]
    simp [genGenerate_genInput]
  | false =>
    simp only [Bool.false_eq_true, if_false]
    unfold genAsst
    rw [h3]
    unfold genRespond
    rw [h4]
    simp [genGenerate_genInput]

/-- C5: the generation history equals the most recent 10 messages of the
thread (at generation time) reordered oldest-first, with the just-inserted
user and placeholder rows excluded, each remaining historical user message's
content replaced by its non-empty `translated_content` when
`translateToEnglish` is on, and the current turn's content appended last. -/
theorem C5_history_window (tid uc : String) (trEn autoTr : Bool) (uid : String)
    (o : GenOracle) (db : DB) (hWF : db.WF)
    (hgate : ownershipBlocked db tid uid o.ownCheckErr = false)
    (h1 : o.insertUserErr = none)
    (h2 : trEn = true → o.translErr = none ∧ o.updUserErr = none)
    (h3 : o.insertAsstErr = none) (h4 : o.fetchHistErr = none) :
    (stream_generator tid uc trEn autoTr uid o db).genInput =
      (fun (s1 : DB × MessageRow) =>
        (fun (db1 : DB) =>
          (fun (s2 : DB × MessageRow) =>
            some (specHistory s2.1.messages tid s1.2.id s2.2.id trEn
              (if trEn then String.join o.translFrags else uc)))
            (db1.insertMessage tid "assistant" "" none))
          (if trEn then
            s1.1.updateMessageTranslated s1.2.id (String.join o.translFrags)
          else s1.1))
        (db.insertMessage tid "user" uc (some (if trEn then "ko" else "en"))) := by
  rw [genInput_ok tid uc trEn autoTr uid o db hgate h1 h2 h3 h4]
  simp only []
  have hWFs1 := WF_insertMessage db hWF tid "user" uc
    (some (if trEn then "ko" else "en"))
  have hWFdb1 : (if trEn then
      (db.insertMessage tid "user" uc
        (some (if trEn then "ko" else "en"))).1.updateMessageTranslated
        (db.insertMessage tid "user" uc
          (some (if trEn then "ko" else "en"))).2.id (String.join o.translFrags)
    else (db.insertMessage tid "user" uc
      (some (if trEn then "ko" else "en"))).1).WF := by
    cases trEn with
    | true => exact WF_updateMessageTranslated _ hWFs1 _ _
    | false => exact hWFs1
  have hWFs2 := WF_insertMessage _ hWFdb1 tid "assistant" "" none
  rw [selectHistoryDesc_reverse _ tid hWFs2.1]
  rw [formatHistory_eq_filter_map]
  rfl

/-- Witness for C5 at a concrete translated turn: the generation history of
the first turn in an empty thread is exactly the translated current turn. -/
theorem C5_history_window_witness :
    (stream_generator "T1" "hello" true true "U1" oT dbT).genInput =
      some [{ role := "user", content := "Hello" }] := by
  have h := C5_history_window "T1" "hello" true true "U1" oT dbT (by decide)
    (by decide) rfl (fun _ => ⟨rfl, rfl⟩) rfl rfl
  rw [h]
  rfl

/-- C4: a chat request against an existing thread whose owner differs from
the caller is rejected with Forbidden by the pre-stream check, and the store
is left unchanged — zero Message rows are inserted, since the ownership
check runs before any write. -/
theorem C4_foreign_thread_forbidden (tid msg : String) (trEn autoTr : Bool)
    (uid : String) (o : GenOracle) (db : DB) (t : ThreadRow)
    (ht : (db.threads.filter (fun th => th.id == tid)).head? = some t)
    (howner : t.user_id ≠ some uid) :
    chat_endpoint tid msg trEn autoTr uid none o db =
      (ChatOutcome.httpError 403 "Access denied", db) := by
  unfold chat_endpoint
  rw [ht]
  simp [howner]

/-- Witness for C4: user `"U2"` hitting `"T1"` (owned by `"U1"`) gets 403
and the store is untouched. -/
theorem C4_foreign_thread_forbidden_witness :
    chat_endpoint "T1" "hi" false false "U2" none oT dbT =
      (ChatOutcome.httpError 403 "Access denied", dbT) :=
  C4_foreign_thread_forbidden "T1" "hi" false false "U2" oT dbT threadT1 rfl
    (by decide)

/-- C6 counterexample: with the sentinel thread id `"-99"`, the endpoint's
Ownership Guard still runs and fails NotFound — the turn does not proceed,
contradicting the claim that the sentinel skips verification and proceeds. -/
theorem C6_counterexample :
    chat_endpoint "-99" "hi" false false "U1" none oT dbT =
      (ChatOutcome.httpError 404 "Thread not found", dbT) := by
  rfl

/-- C6 (amended): only the in-stream re-check inside `stream_generator`
skips ownership verification for the sentinel `"-99"` (such a run proceeds
straight into the orchestration body); the endpoint-level Ownership Guard
runs for every supplied thread id including the sentinel, failing NotFound
whenever no thread row matches — which is always the case for `"-99"` — and
Forbidden whenever the stored owner differs from the caller. -/
theorem C6_sentinel_guard (tid msg uc : String) (trEn autoTr : Bool)
    (uid : String) (o : GenOracle) (db : DB) :
    (stream_generator "-99" uc trEn autoTr uid o db =
      genBody o db "-99" uc trEn autoTr) ∧
    ((db.threads.filter (fun th => th.id == tid)).head? = none →
      chat_endpoint tid msg trEn autoTr uid none o db =
        (ChatOutcome.httpError 404 "Thread not found", db)) ∧
    (∀ t : ThreadRow, (db.threads.filter (fun th => th.id == tid)).head? = some t →
      t.user_id ≠ some uid →
      chat_endpoint tid msg trEn autoTr uid none o db =
        (ChatOutcome.httpError 403 "Access denied", db)) := by
  refine ⟨?_, ?_, ?_⟩
  · unfold stream_generator ownershipBlocked
    simp
  · intro h
    unfold chat_endpoint
    rw [h]
  · intro t h hne
    unfold chat_endpoint
    rw [h]
    simp [hne]

/-- Witness for C6 (amended) at concrete inputs. -/
theorem C6_sentinel_guard_witness :
    stream_generator "-99" "hi" false false "U1" oT dbT =
      genBody oT dbT "-99" "hi" false false ∧
    chat_endpoint "T1" "hi" false false "U2" none oT dbT =
      (ChatOutcome.httpError 403 "Access denied", dbT) :=
  ⟨(C6_sentinel_guard "T1" "hi" "hi" false false "U1" oT dbT).1,
   (C6_sentinel_guard "T1" "hi" "hi" false false "U2" oT dbT).2.2 threadT1 rfl
     (by decide)⟩

theorem errFrame_not_mem_frags (m : String) (l : List String) :
    Event.errFrame m ∉ l.map Event.fragment := by
  simp [List.mem_map]

theorem no_err_prefix_base (h : List Event) :
    ∃ P : List Event, h = P ++ h ∧ ∀ m, Event.errFrame m ∉ P :=
  ⟨[], rfl, by simp⟩

theorem no_err_prefix_cons {x : Event} {l h : List Event}
    (hx : ∀ m, x ≠ Event.errFrame m)
    (hp : ∃ P, l = P ++ h ∧ ∀ m, Event.errFrame m ∉ P) :
    ∃ P, x :: l = P ++ h ∧ ∀ m, Event.errFrame m ∉ P := by
  rcases hp with ⟨P, hP, hno⟩
  refine ⟨x :: P, by rw [hP]; rfl, ?_⟩
  intro m
  simp only [List.mem_cons, not_or]
  exact ⟨fun hxm => hx m hxm.symm, hno m⟩

theorem no_err_prefix_frags {fr : List String} {l h : List Event}
    (hp : ∃ P, l = P ++ h ∧ ∀ m, Event.errFrame m ∉ P) :
    ∃ P, fr.map Event.fragment ++ l = P ++ h ∧ ∀ m, Event.errFrame m ∉ P := by
  rcases hp with ⟨P, hP, hno⟩
  refine ⟨fr.map Event.fragment ++ P, by rw [hP, List.append_assoc], ?_⟩
  intro m
  simp only [List.mem_append, not_or]
  exact ⟨errFrame_not_mem_frags m fr, hno m⟩

theorem events_of_firstExn (tid uc : String) (trEn autoTr : Bool) (uid : String)
    (o : GenOracle) (db : DB) (e : Exn)
    (hgate : ownershipBlocked db tid uid o.ownCheckErr = false)
    (hfe : firstExn trEn autoTr o = some e) :
    ∃ P : List Event,
      (stream_generator tid uc trEn autoTr uid o db).events = P ++ handleExn e ∧
      ∀ m, Event.errFrame m ∉ P := by
  unfold stream_generator
  rw [hgate]
  simp only [Bool.false_eq_true, if_false]
  unfold firstExn at hfe
  unfold genBody
  cases hA : o.insertUserErr with
  | some e1 =>
    rw [hA] at hfe
    injection hfe with hfe
    subst hfe
    exact ⟨[], rfl, by simp⟩
  | none =>
    rw [hA] at hfe
    cases trEn with
    | true =>
      simp only [if_true] at hfe ⊢
      unfold genTranslate
      cases hB : o.translErr with
      | some e1 =>
        rw [hB] at hfe
        simp only [] at hfe
        injection hfe with hfe
        subst hfe
        simp only [List.cons_append, List.append_assoc, List.singleton_append]
        repeat first
          | exact no_err_prefix_base _
          | apply no_err_prefix_cons (by simp)
          | apply no_err_prefix_frags
      | none =>
        rw [hB] at hfe
        cases hC : o.updUserErr with
        | some e1 =>
          rw [hC] at hfe
          simp only [] at hfe
          injection hfe with hfe
          subst hfe
          simp only [List.cons_append, List.append_assoc, List.singleton_append]
          repeat first
            | exact no_err_prefix_base _
            | apply no_err_prefix_cons (by simp)
            | apply no_err_prefix_frags
        | none =>
          rw [hC] at hfe
          simp only [] at hfe
          unfold genAsst
          cases hD : o.insertAsstErr with
          | some e1 =>
            rw [hD] at hfe
            injection hfe with hfe
            subst hfe
            simp only [List.cons_append, List.append_assoc, List.singleton_append]
            repeat first
              | exact no_err_prefix_base _
              | apply no_err_prefix_cons (by simp)
              | apply no_err_prefix_frags
          | none =>
            rw [hD] at hfe
            unfold genRespond
            cases hE : o.fetchHistErr with
            | some e1 =>
              rw [hE] at hfe
              injection hfe with hfe
              subst hfe
              simp only [List.cons_append, List.append_assoc, List.singleton_append]
              repeat first
                | exact no_err_prefix_base _
                | apply no_err_prefix_cons (by simp)
                | apply no_err_prefix_frags
            | none =>
              rw [hE] at hfe
              unfold genGenerate
              cases hF : o.genErr with
              | some e1 =>
                rw [hF] at hfe
                injection hfe with hfe
                subst hfe
                simp only [List.cons_append, List.append_assoc, List.singleton_append]
                repeat first
                  | exact no_err_prefix_base _
                  | apply no_err_prefix_cons (by simp)
                  | apply no_err_prefix_frags
              | none =>
                rw [hF] at hfe
                cases hG : o.updAsstErr with
                | some e1 =>
                  rw [hG] at hfe
                  injection hfe with hfe
                  subst hfe
                  simp only [List.cons_append, List.append_assoc, List.singleton_append]
                  repeat first
                    | exact no_err_prefix_base _
                    | apply no_err_prefix_cons (by simp)
                    | apply no_err_prefix_frags
                | none =>
                  rw [hG] at hfe
                  cases autoTr with
                  | false => simp at hfe
                  | true =>
                    simp only [if_true] at hfe
                    unfold genFinish
                    cases hH : o.asstTrErr with
                    | some e1 =>
                      rw [hH] at hfe
                      injection hfe with hfe
                      subst hfe
                      simp only [List.cons_append, List.append_assoc, List.singleton_append]
                      repeat first
                        | exact no_err_prefix_base _
                        | apply no_err_prefix_cons (by simp)
                        | apply no_err_prefix_frags
                    | none =>
                      rw [hH] at hfe
                      cases hI : o.updAsstTrErr with
                      | some e1 =>
                        rw [hI] at hfe
                        injection hfe with hfe
                        subst hfe
                        simp only [List.cons_append, List.append_assoc, List.singleton_append]
                        repeat first
                          | exact no_err_prefix_base _
                          | apply no_err_prefix_cons (by simp)
                          | apply no_err_prefix_frags
                      | none =>
                        rw [hI] at hfe
                        exact absurd hfe (by simp)
    | false =>
      simp only [Bool.false_eq_true, if_false] at hfe ⊢
      unfold genAsst
      cases hD : o.insertAsstErr with
      | some e1 =>
        rw [hD] at hfe
        simp only [] at hfe
        injection hfe with hfe
        subst hfe
        simp only [List.cons_append, List.append_assoc, List.singleton_append]
        repeat first
          | exact no_err_prefix_base _
          | apply no_err_prefix_cons (by simp)
          | apply no_err_prefix_frags
      | none =>
        rw [hD] at hfe
        simp only [] at hfe
        unfold genRespond
        cases hE : o.fetchHistErr with
        | some e1 =>
          rw [hE] at hfe
          injection hfe with hfe
          subst hfe
          simp only [List.cons_append, List.append_assoc, List.singleton_append]
          repeat first
            | exact no_err_prefix_base _
            | apply no_err_prefix_cons (by simp)
            | apply no_err_prefix_frags
        | none =>
          rw [hE] at hfe
          unfold genGenerate
          cases hF : o.genErr with
          | some e1 =>
            rw [hF] at hfe
            injection hfe with hfe
            subst hfe
            simp only [List.cons_append, List.append_assoc, List.singleton_append]
            repeat first
              | exact no_err_prefix_base _
              | apply no_err_prefix_cons (by simp)
              | apply no_err_prefix_frags
          | none =>
            rw [hF] at hfe
            cases hG : o.updAsstErr with
            | some e1 =>
              rw [hG] at hfe
              injection hfe with hfe
              subst hfe
              simp only [List.cons_append, List.append_assoc, List.singleton_append]
              repeat first
                | exact no_err_prefix_base _
                | apply no_err_prefix_cons (by simp)
                | apply no_err_prefix_frags
            | none =>
              rw [hG] at hfe
              cases autoTr with
              | false => simp at hfe
              | true =>
                simp only [if_true] at hfe
                unfold genFinish
                cases hH : o.asstTrErr with
                | some e1 =>
                  rw [hH] at hfe
                  injection hfe with hfe
                  subst hfe
                  simp only [List.cons_append, List.append_assoc, List.singleton_append]
                  repeat first
                    | exact no_err_prefix_base _
                    | apply no_err_prefix_cons (by simp)
                    | apply no_err_prefix_frags
                | none =>
                  rw [hH] at hfe
                  cases hI : o.updAsstTrErr with
                  | some e1 =>
                    rw [hI] at hfe
                    injection hfe with hfe
                    subst hfe
                    simp only [List.cons_append, List.append_assoc, List.singleton_append]
                    repeat first
                      | exact no_err_prefix_base _
                      | apply no_err_prefix_cons (by simp)
                      | apply no_err_prefix_frags
                  | none =>
                    rw [hI] at hfe
                    exact absurd hfe (by simp)

/-- An oracle whose assistant-placeholder insert raises a non-cancellation
exception whose text contains the `"Broken pipe"` marker. -/
def oBroken : GenOracle :=
  { oT with insertAsstErr := some { cancelled := false, msg := "Broken pipe" } }

/-- C7 counterexample: a failure raised inside the generator after streaming
has begun (the placeholder insert, raised after the user-message frame was
already emitted) that is not a caller cancellation, yet the stream closes
with no error frame: the emitted frames are just the user-message event. -/
theorem C7_counterexample :
    (stream_generator "T1" "hi" false false "U1" oBroken dbT).events =
      [Event.userMessageCreated 0 "hi" "en" ""] ∧
    oBroken.insertAsstErr = some { cancelled := false, msg := "Broken pipe" } ∧
    (∀ m, Event.errFrame m ∉
      (stream_generator "T1" "hi" false false "U1" oBroken dbT).events) := by
  refine ⟨by decide, rfl, ?_⟩
  intro m
  have h : (stream_generator "T1" "hi" false false "U1" oBroken dbT).events =
      [Event.userMessageCreated 0 "hi" "en" ""] := by decide
  rw [h]
  simp

/-- C7 (amended): once past the step-0 gate, the first exception of the try
body is surfaced in-band exactly when it is neither a cancellation nor an
exception whose text contains one of the two client-disconnect markers
("socket.send() raised exception" / "Broken pipe"): in that case the stream
ends with an error frame carrying its text; a cancellation or a
disconnect-marked exception closes the stream silently, with no error frame
at all. -/
theorem C7_error_surfacing (tid uc : String) (trEn autoTr : Bool) (uid : String)
    (o : GenOracle) (db : DB) (e : Exn)
    (hgate : ownershipBlocked db tid uid o.ownCheckErr = false)
    (hfe : firstExn trEn autoTr o = some e) :
    (e.cancelled = false → disconnectText e.msg = false →
      (stream_generator tid uc trEn autoTr uid o db).events.getLast? =
        some (Event.errFrame e.msg)) ∧
    ((e.cancelled = true ∨ disconnectText e.msg = true) →
      ∀ m, Event.errFrame m ∉
        (stream_generator tid uc trEn autoTr uid o db).events) := by
  rcases events_of_firstExn tid uc trEn autoTr uid o db e hgate hfe
    with ⟨P, hP, hno⟩
  rw [hP]
  constructor
  · intro hc hd
    unfold handleExn
    rw [if_neg (by simp [hc]), if_neg (by simp [hd])]
    exact List.getLast?_concat _
  · intro hcd m
    have hh : handleExn e = [] := by
      unfold handleExn
      split_ifs with hc1 hc2
      · rfl
      · rfl
      · rcases hcd with h | h
        · exact absurd h (by simpa using hc1)
        · exact absurd h (by simpa using hc2)
    rw [hh, List.append_nil]
    exact hno m

/-- Witness for C7 (amended): a plain DB failure during the user insert ends
the stream with its error frame. -/
theorem C7_error_surfacing_witness :
    (stream_generator "T1" "hi" false false "U1"
      { oT with insertUserErr := some { cancelled := false, msg := "boom" } }
      dbT).events.getLast? = some (Event.errFrame "boom") :=
  (C7_error_surfacing "T1" "hi" false false "U1"
    { oT with insertUserErr := some { cancelled := false, msg := "boom" } }
    dbT { cancelled := false, msg := "boom" } (by decide) rfl).1 rfl (by decide)

/-- C8: the user-context resolver 400s when the identity header is missing
(or empty, Python falsiness); on success it performs exactly one write —
inserting a `user_type = "guest"` row with `last_active_at = now()` when the
token is unseen, or touching `last_active_at` when the user exists — and
returns the token as the resolved user id; any persistence failure becomes
InternalError with no write and no authentication. -/
theorem C8_user_resolver (token : Option String) (o : AuthOracle) (db : DB) :
    ((token = none ∨ token = some "") →
      get_current_user_id token o db = (AuthOutcome.badRequest, db, 0)) ∧
    (∀ x, token = some x → x ≠ "" → o.selectRaised = false →
      o.writeRaised = false →
      get_current_user_id token o db =
        (AuthOutcome.ok x,
         if (db.users.filter (fun u => u.id == x)).isEmpty then db.insertGuestUser x
         else db.touchUser x, 1)) ∧
    (∀ x, token = some x → x ≠ "" →
      (o.selectRaised = true ∨ o.writeRaised = true) →
      get_current_user_id token o db = (AuthOutcome.internalError, db, 0)) ∧
    (∀ x, token = some x → x ≠ "" → o.selectRaised = false →
      o.writeRaised = false →
      (db.users.filter (fun u => u.id == x)).isEmpty = true →
      (get_current_user_id token o db).2.1.users =
        db.users ++ [{ id := x, user_type := "guest", created_at := db.clock,
                       last_active_at := db.clock }]) := by
  refine ⟨?_, ?_, ?_, ?_⟩
  · intro h
    rcases h with h | h <;> subst h <;> simp [get_current_user_id]
  · intro x hx hne hs hw
    subst hx
    unfold get_current_user_id
    simp only []
    rw [if_neg hne, hs, hw]
    by_cases hE : (db.users.filter (fun u => u.id == x)).isEmpty <;> simp [hE]
  · intro x hx hne hsw
    subst hx
    unfold get_current_user_id
    simp only []
    rw [if_neg hne]
    rcases hsw with h | h
    · rw [h]
      simp
    · cases hs : o.selectRaised with
      | true => simp
      | false =>
        rw [h]
        by_cases hE : (db.users.filter (fun u => u.id == x)).isEmpty <;> simp [hE]
  · intro x hx hne hs hw hE
    subst hx
    unfold get_current_user_id
    simp only []
    rw [if_neg hne, hs, hw, hE]
    simp [DB.insertGuestUser]

/-- Witness for C8: an unseen token is provisioned as a guest with one write. -/
theorem C8_user_resolver_witness :
    get_current_user_id (some "u9") { selectRaised := false, writeRaised := false }
        dbT =
      (AuthOutcome.ok "u9",
       if (dbT.users.filter (fun u => u.id == "u9")).isEmpty then
         dbT.insertGuestUser "u9"
       else dbT.touchUser "u9", 1) :=
  (C8_user_resolver (some "u9") { selectRaised := false, writeRaised := false }
    dbT).2.1 "u9" rfl (by decide) rfl rfl

theorem threadOwnerCheck_bookmarked (db : DB) (x : List String) (tid uid : String) :
    threadOwnerCheck { db with bookmarked := x } tid uid =
      threadOwnerCheck db tid uid := rfl

theorem add_bookmarked_step (tid uid : String) (db : DB)
    (hown : threadOwnerCheck db tid uid = none)
    (hc : db.bookmarked.count tid ≤ 1) :
    (add_bookmarked_thread tid uid db).1 = BmOutcome.success ∧
    (add_bookmarked_thread tid uid db).2.bookmarked.count tid = 1 ∧
    (add_bookmarked_thread tid uid db).2.threads = db.threads := by
  unfold add_bookmarked_thread
  rw [hown]
  by_cases hE : (db.bookmarked.filter (fun b => b == tid)).isEmpty
  · have hnm : tid ∉ db.bookmarked := by
      intro hm
      rw [List.isEmpty_iff, List.filter_eq_nil_iff] at hE
      exact hE tid hm (by simp)
    rw [if_pos hE]
    refine ⟨rfl, ?_, rfl⟩
    simp [List.count_append, List.count_eq_zero.mpr hnm,
      List.count_singleton_self]
  · have hm : tid ∈ db.bookmarked := by
      by_contra hnm
      apply hE
      rw [List.isEmpty_iff, List.filter_eq_nil_iff]
      intro b hb hbt
      have hbt2 : b = tid := by simpa using hbt
      exact hnm (hbt2 ▸ hb)
    have h1 : 1 ≤ db.bookmarked.count tid := List.one_le_count_iff.mpr hm
    rw [if_neg hE]
    exact ⟨rfl, Nat.le_antisymm hc h1, rfl⟩

/-- C9: on a caller-owned thread, invoking "add" twice leaves exactly one
BookmarkedThread row; "remove" on a non-bookmarked thread is a successful
no-op.  Both the `bookmarks.py` handlers and the `threads.py` toggle variant
satisfy this. -/
theorem C9_bookmark_idempotent (tid uid : String) (db : DB)
    (hown : threadOwnerCheck db tid uid = none)
    (hcount : db.bookmarked.count tid ≤ 1) :
    ((add_bookmarked_thread tid uid db).1 = BmOutcome.success ∧
     (add_bookmarked_thread tid uid
       (add_bookmarked_thread tid uid db).2).1 = BmOutcome.success ∧
     (add_bookmarked_thread tid uid
       (add_bookmarked_thread tid uid db).2).2.bookmarked.count tid = 1) ∧
    (db.bookmarked.count tid = 0 →
      remove_bookmarked_thread tid uid db = (BmOutcome.success, db)) ∧
    ((toggle_bookmark_thread "add" tid uid db).1 = BmOutcome.success ∧
     (toggle_bookmark_thread "add" tid uid
       (toggle_bookmark_thread "add" tid uid db).2).2.bookmarked.count tid = 1) ∧
    (db.bookmarked.count tid = 0 →
      toggle_bookmark_thread "remove" tid uid db = (BmOutcome.success, db)) := by
  have hstep1 := add_bookmarked_step tid uid db hown hcount
  have hown2 : threadOwnerCheck (add_bookmarked_thread tid uid db).2 tid uid
      = none := by
    unfold threadOwnerCheck at hown ⊢
    rw [hstep1.2.2]
    exact hown
  have hstep2 := add_bookmarked_step tid uid (add_bookmarked_thread tid uid db).2
    hown2 (by rw [hstep1.2.1])
  have htoggle_eq : ∀ d : DB, toggle_bookmark_thread "add" tid uid d =
      add_bookmarked_thread tid uid d := by
    intro d
    unfold toggle_bookmark_thread add_bookmarked_thread
    cases threadOwnerCheck d tid uid <;> simp
  refine ⟨⟨hstep1.1, hstep2.1, hstep2.2.1⟩, ?_, ?_, ?_⟩
  · intro hzero
    unfold remove_bookmarked_thread
    rw [hown]
    have : db.bookmarked.filter (fun b => b ≠ tid) = db.bookmarked := by
      rw [List.filter_eq_self]
      intro b hb
      have : tid ∉ db.bookmarked := List.count_eq_zero.mp hzero
      simp only [ne_eq, decide_not]
      by_cases hbt : b = tid
      · exact absurd (hbt ▸ hb) this
      · simp [hbt]
    rw [this]
  · rw [htoggle_eq, htoggle_eq]
    exact ⟨hstep1.1, hstep2.2.1⟩
  · intro hzero
    unfold toggle_bookmark_thread
    rw [hown]
    have hne : ("remove" : String) ≠ "add" := by decide
    rw [if_neg hne, if_pos rfl]
    have : db.bookmarked.filter (fun b => b ≠ tid) = db.bookmarked := by
      rw [List.filter_eq_self]
      intro b hb
      have : tid ∉ db.bookmarked := List.count_eq_zero.mp hzero
      simp only [ne_eq, decide_not]
      by_cases hbt : b = tid
      · exact absurd (hbt ▸ hb) this
      · simp [hbt]
    rw [this]

/-- Witness for C9 at a concrete owned thread. -/
theorem C9_bookmark_idempotent_witness :
    (add_bookmarked_thread "T1" "U1"
      (add_bookmarked_thread "T1" "U1" dbT).2).2.bookmarked.count "T1" = 1 ∧
    remove_bookmarked_thread "T1" "U1" dbT = (BmOutcome.success, dbT) := by
  have h := C9_bookmark_idempotent "T1" "U1" dbT (by decide) (by decide)
  exact ⟨h.1.2.2, h.2.1 (by decide)⟩

theorem find?_fst_congr {l1 l2 : List (String × String)}
    (h : l1.map Prod.fst = l2.map Prod.fst) (p : String → Bool) :
    (l1.find? (fun kv => p kv.1)).map Prod.fst =
      (l2.find? (fun kv => p kv.1)).map Prod.fst := by
  induction l1 generalizing l2 with
  | nil =>
    cases l2 with
    | nil => rfl
    | cons b l2 => simp at h
  | cons a l1 ih =>
    cases l2 with
    | nil => simp at h
    | cons b l2 =>
      simp only [List.map_cons, List.cons.injEq] at h
      simp only [List.find?_cons]
      rw [h.1]
      cases hp : p b.1 <;> simp [hp, ih h.2, h.1]

theorem placeholders_congr {α β : Type} {l1 : List α} {l2 : List β}
    (h : l1.length = l2.length) :
    l1.map (fun _ => ("%s" : String)) = l2.map (fun _ => ("%s" : String)) := by
  rw [List.map_const', List.map_const', h]

theorem buildSQL_shape (q1 q2 : QueryState) (u1 u2 : String)
    (h : SameShape q1 q2) :
    Except.map Prod.fst (q1.buildSQL u1) = Except.map Prod.fst (q2.buildSQL u2) := by
  obtain ⟨t1, sel1, eqF1, inF1, ordF1, limF1, insD1, updD1, del1⟩ := q1
  obtain ⟨t2, sel2, eqF2, inF2, ordF2, limF2, insD2, updD2, del2⟩ := q2
  rcases h with ⟨hT, hSel, hEq, hIn, hOrd, hLim, hIns, hUpd, hDel⟩
  simp only [] at hT hSel hEq hIn hOrd hLim hIns hUpd hDel
  subst hT
  subst hSel
  subst hOrd
  subst hLim
  subst hDel
  unfold QueryState.buildSQL
  simp only []
  cases insD1 with
  | some d1 =>
    cases insD2 with
    | none => simp at hIns
    | some d2 =>
      simp only [Option.map_some'] at hIns
      injection hIns with hk
      have hlen : d1.length = d2.length := by
        have := congrArg List.length hk
        simpa using this
      simp only []
      rw [show (List.map Prod.fst d2).contains "id" =
            (List.map Prod.fst d1).contains "id" from by rw [hk]]
      split_ifs with hc
      · have hkeys : (d1 ++ [("id", u1)]).map Prod.fst =
            (d2 ++ [("id", u2)]).map Prod.fst := by
          simp [hk]
        have hfind := find?_fst_congr hkeys (fun s => ¬ identRegexMatch s)
        cases hf1 : (d1 ++ [("id", u1)]).find? (fun kv => ¬ identRegexMatch kv.1) with
        | some kv1 =>
          rw [hf1] at hfind
          cases hf2 : (d2 ++ [("id", u2)]).find? (fun kv => ¬ identRegexMatch kv.1) with
          | none => rw [hf2] at hfind; simp at hfind
          | some kv2 =>
            rw [hf2] at hfind
            simp only [Option.map_some'] at hfind
            injection hfind with hfind
            simp [Except.map, hfind]
        | none =>
          rw [hf1] at hfind
          cases hf2 : (d2 ++ [("id", u2)]).find? (fun kv => ¬ identRegexMatch kv.1) with
          | some kv2 => rw [hf2] at hfind; simp at hfind
          | none =>
            simp only [Except.map]
            have hph := placeholders_congr
              (by simp [hlen] : (d1 ++ [("id", u1)]).length = (d2 ++ [("id", u2)]).length)
            rw [hkeys, hph]
      · have hfind := find?_fst_congr hk (fun s => ¬ identRegexMatch s)
        cases hf1 : d1.find? (fun kv => ¬ identRegexMatch kv.1) with
        | some kv1 =>
          rw [hf1] at hfind
          cases hf2 : d2.find? (fun kv => ¬ identRegexMatch kv.1) with
          | none => rw [hf2] at hfind; simp at hfind
          | some kv2 =>
            rw [hf2] at hfind
            simp only [Option.map_some'] at hfind
            injection hfind with hfind
            simp [Except.map, hfind]
        | none =>
          rw [hf1] at hfind
          cases hf2 : d2.find? (fun kv => ¬ identRegexMatch kv.1) with
          | some kv2 => rw [hf2] at hfind; simp at hfind
          | none =>
            simp only [Except.map]
            rw [hk, placeholders_congr hlen]
  | none =>
    cases insD2 with
    | some d2 => simp at hIns
    | none =>
      cases updD1 with
      | some d1 =>
        cases updD2 with
        | none => simp at hUpd
        | some d2 =>
          simp only [Option.map_some'] at hUpd
          injection hUpd with hk
          simp only []
          have hfind := find?_fst_congr hk (fun s => ¬ identRegexMatch s)
          cases hf1 : d1.find? (fun kv => ¬ identRegexMatch kv.1) with
          | some kv1 =>
            rw [hf1] at hfind
            cases hf2 : d2.find? (fun kv => ¬ identRegexMatch kv.1) with
            | none => rw [hf2] at hfind; simp at hfind
            | some kv2 =>
              rw [hf2] at hfind
              simp only [Option.map_some'] at hfind
              injection hfind with hfind
              simp [Except.map, hfind]
          | none =>
            rw [hf1] at hfind
            cases hf2 : d2.find? (fun kv => ¬ identRegexMatch kv.1) with
            | some kv2 => rw [hf2] at hfind; simp at hfind
            | none =>
              cases eqF1 with
              | some cv1 =>
                cases eqF2 with
                | none => simp at hEq
                | some cv2 =>
                  simp only [Option.map_some'] at hEq
                  injection hEq with hcv
                  simp only [Except.map]
                  have hsets : d1.map (fun kv => kv.1 ++ " = %s") =
                      d2.map (fun kv => kv.1 ++ " = %s") := by
                    have hrw : ∀ l : List (String × String),
                        l.map (fun kv => kv.1 ++ " = %s") =
                          (l.map Prod.fst).map (fun s => s ++ " = %s") := by
                      intro l
                      rw [List.map_map]
                      rfl
                    rw [hrw, hrw, hk]
                  rw [hsets, hcv]
              | none =>
                cases eqF2 with
                | some cv2 => simp at hEq
                | none => rfl
      | none =>
        cases updD2 with
        | some d2 => simp at hUpd
        | none =>
          cases del1 with
          | true =>
            simp only [if_true]
            cases eqF1 with
            | some cv1 =>
              cases eqF2 with
              | none => simp at hEq
              | some cv2 =>
                simp only [Option.map_some'] at hEq
                injection hEq with hcv
                simp only [Except.map]
                rw [hcv]
            | none =>
              cases eqF2 with
              | some cv2 => simp at hEq
              | none => rfl
          | false =>
            simp only [Bool.false_eq_true, if_false, Except.map]
            cases eqF1 with
            | some cv1 =>
              cases eqF2 with
              | none => simp at hEq
              | some cv2 =>
                simp only [Option.map_some'] at hEq
                injection hEq with hcv
                simp only []
                rw [hcv]
            | none =>
              cases eqF2 with
              | some cv2 => simp at hEq
              | none =>
                simp only []
                cases inF1 with
                | some cvs1 =>
                  cases inF2 with
                  | none => simp at hIn
                  | some cvs2 =>
                    simp only [Option.map_some'] at hIn
                    injection hIn with hcvs
                    have hc1 : cvs1.1 = cvs2.1 := by
                      have := congrArg Prod.fst hcvs
                      simpa using this
                    have hc2 : cvs1.2.length = cvs2.2.length := by
                      have := congrArg Prod.snd hcvs
                      simpa using this
                    have hemp : cvs1.2.isEmpty = cvs2.2.isEmpty := by
                      cases c1 : cvs1.2 <;> cases c2 : cvs2.2 <;> simp_all
                    simp only []
                    cases hE : cvs1.2.isEmpty with
                    | true =>
                      rw [if_pos (show cvs2.2.isEmpty = true from by
                        rw [← hemp]; exact hE)]
                      simp
                    | false =>
                      rw [if_neg (show ¬ cvs2.2.isEmpty = true from by
                        rw [← hemp]; simp [hE])]
                      simp only [Bool.false_eq_true, if_false]
                      rw [hc1, placeholders_congr hc2]
                | none =>
                  cases inF2 with
                  | some cvs2 => simp at hIn
                  | none => rfl

/-- C10 counterexample: the column name `"id\n"` (trailing newline) is not a
valid identifier, yet the builder's `eq` accepts it without raising — the
Python regex `^[a-zA-Z_][a-zA-Z0-9_]*$` also matches just before a single
trailing newline, so no error is raised for this non-identifier. -/
theorem C10_counterexample :
    isValidIdentifier "id\n" = false ∧ identRegexMatch "id\n" = true ∧
    QueryState.eq { table_name := "messages" } "id\n" "v" =
      Except.ok { table_name := "messages", eqF := some ("id\n", "v") } := by
  refine ⟨by decide, by decide, rfl⟩

/-- C10 (amended): the Persistence Gateway rejects, before any SQL text is
built, every table name outside the fixed allowed set, and every
eq/order/in_ filter column or insert/update payload column that fails the
identifier regex (which, per Python `$` semantics, also tolerates exactly
one trailing newline — the lone deviation from "valid identifier"); and the
SQL text depends only on the table, select string, column names, `IN`-list
arity and order/limit/delete settings — never on the filter or row values,
which are passed solely as bound parameters. -/
theorem C10_builder_safety :
    (∀ name, name ∉ allowedTables →
      dbTable name = Except.error ("Invalid table name: " ++ name)) ∧
    (∀ (q : QueryState) (col v : String), identRegexMatch col = false →
      q.eq col v = Except.error ("Invalid column name: " ++ col)) ∧
    (∀ (q : QueryState) (col : String) (d : Bool), identRegexMatch col = false →
      q.order col d = Except.error ("Invalid column name: " ++ col)) ∧
    (∀ (q : QueryState) (col : String) (vs : List String),
      identRegexMatch col = false →
      q.in_ col vs = Except.error ("Invalid column name: " ++ col)) ∧
    (∀ (q : QueryState) data kv (u : String), q.insertD = none →
      q.updateD = some data →
      data.find? (fun kv2 => ¬ identRegexMatch kv2.1) = some kv →
      q.buildSQL u = Except.error ("Invalid column name: " ++ kv.1)) ∧
    (∀ (q : QueryState) data kv (u : String), q.insertD = some data →
      data.find? (fun kv2 => ¬ identRegexMatch kv2.1) = some kv →
      q.buildSQL u = Except.error ("Invalid column name: " ++ kv.1)) ∧
    (∀ (q1 q2 : QueryState) (u1 u2 : String), SameShape q1 q2 →
      Except.map Prod.fst (q1.buildSQL u1) = Except.map Prod.fst (q2.buildSQL u2)) := by
  refine ⟨?_, ?_, ?_, ?_, ?_, ?_, buildSQL_shape⟩
  · intro name hmem
    unfold dbTable
    rw [if_neg hmem]
  · intro q col v h
    unfold QueryState.eq
    rw [if_neg (by simp [h])]
  · intro q col d h
    unfold QueryState.order
    rw [if_neg (by simp [h])]
  · intro q col vs h
    unfold QueryState.in_
    rw [if_neg (by simp [h])]
  · intro q data kv u hins hupd hfind
    unfold QueryState.buildSQL
    rw [hins, hupd]
    simp only []
    rw [hfind]
  · intro q data kv u hins hfind
    unfold QueryState.buildSQL
    rw [hins]
    simp only []
    split_ifs with hc
    · rw [List.find?_append, hfind]
      rfl
    · rw [hfind]

/-- Witness for C10 (amended) at concrete inputs: a bad table name is
rejected, a bad column is rejected, and two eq-queries differing only in the
bound value build the same SQL text. -/
theorem C10_builder_safety_witness :
    dbTable "evil" = Except.error ("Invalid table name: " ++ "evil") ∧
    QueryState.eq { table_name := "messages" } "bad col" "v" =
      Except.error ("Invalid column name: " ++ "bad col") ∧
    Except.map Prod.fst
        (QueryState.buildSQL { table_name := "messages", eqF := some ("id", "A") } "u1") =
      Except.map Prod.fst
        (QueryState.buildSQL { table_name := "messages", eqF := some ("id", "B") } "u2") := by
  have h := C10_builder_safety
  exact ⟨h.1 "evil" (by decide), h.2.1 _ "bad col" "v" (by decide),
    h.2.2.2.2.2.2 _ _ "u1" "u2" ⟨rfl, rfl, rfl, rfl, rfl, rfl, rfl, rfl, rfl⟩⟩
